import Mathlib

/-!
# Stream and event coordination of cutorch (`init.c`)

A shallow embedding of the four stream coordination entry points of `init.c`
(`cutorch_streamWaitFor`, `cutorch_streamWaitForMultiDevice`,
`cutorch_streamBarrier`, `cutorch_streamBarrierMultiDevice`) and of the helpers
they call, followed by theorems about them.

Modelling conventions.

* A Lua table is the list of key/value pairs that `lua_next` yields, in the
  order it yields them.  The table is not modified during a call, so every
  traversal of it yields the same list.  A well-formed table has pairwise
  distinct keys; the theorems below hold for every list, so they do not ask
  for it.
* Stack indices (`arg`, `-1`, `-2`) are replaced by the value they denote; the
  `lua_pushvalue` / `lua_pop` pairs that only keep the stack balanced vanish.
* A Lua number is a rational (every finite double is one) and the C cast
  `(int)` is truncation toward zero, as it is for every value in the `int`
  range.
* The CUDA runtime is a state: the current device of the host thread, the log
  of state-changing calls made so far, the next fresh event handle, and a
  budget that says how many more runtime calls succeed before one reports an
  error.  A failed call aborts the operation (`THCudaCheck` raises), so the
  position of the first failing call is all that matters.
-/

namespace Cutorch

/-! ## Lua values -/

/-- A Lua value as seen through the C API. `other` stands for functions,
userdata and threads. -/
inductive LuaValue where
  | nil
  | boolean (b : Bool)
  | number (x : ℚ)
  | string (s : String)
  | table (entries : List (LuaValue × LuaValue))
  | other

/-- The part of the Lua state the code depends on: the string-to-number
coercion that `lua_isnumber` and `lua_tonumber` apply to strings. -/
structure lua_State where
  str2d : String → Option ℚ

/-- The C cast `(int) x` of a Lua number: truncation toward zero. Outside the
`int` range the C cast is undefined; the model keeps the mathematical value. -/
def toCInt (x : ℚ) : Int := x.num.tdiv x.den

/-- `lua_istable`. -/
def lua_istable : LuaValue → Bool
  | .table _ => true
  | _ => false

/-- `lua_isnumber`: a number, or a string convertible to a number. -/
def lua_isnumber (L : lua_State) : LuaValue → Bool
  | .number _ => true
  | .string s => (L.str2d s).isSome
  | _ => false

/-- `lua_tonumber`: the number, the converted string, or 0. -/
def lua_tonumber (L : lua_State) : LuaValue → ℚ
  | .number x => x
  | .string s => (L.str2d s).getD 0
  | _ => 0

/-- The key/value pairs a `lua_next` traversal of the value yields. -/
def lua_entries : LuaValue → List (LuaValue × LuaValue)
  | .table es => es
  | _ => []

/-! ## Errors, registry, runtime -/

/-- How a call can abort: `validation` is a `THError` / `luaL_error` raised by
an argument check, `runtime` is `THCudaCheck` on a failed CUDA runtime call. -/
inductive Err where
  | validation
  | runtime
  deriving DecidableEq, Repr

instance {ε α : Type} [DecidableEq ε] [DecidableEq α] : DecidableEq (Except ε α)
  | .ok a, .ok b =>
    if h : a = b then isTrue (by rw [h]) else isFalse (fun h2 => h (Except.ok.inj h2))
  | .error a, .error b =>
    if h : a = b then isTrue (by rw [h]) else isFalse (fun h2 => h (Except.error.inj h2))
  | .ok _, .error _ => isFalse (fun h => Except.noConfusion h)
  | .error _, .ok _ => isFalse (fun h => Except.noConfusion h)

/-- The fields of `THCState` the code reads. -/
structure THCState where
  numDevices : Nat
  numUserStreams : Nat
  deriving DecidableEq, Repr

/-- A stream handle; its identity is (device, index). -/
structure cudaStream_t where
  device : Int
  index : Int
  deriving DecidableEq, Repr

/-- An event handle. -/
abbrev cudaEvent_t := Nat

/-- `THCState_getNumDevices`. -/
def THCState_getNumDevices (state : THCState) : Int := state.numDevices

/-- Modelled from the spec: `THCState_getDeviceStream` is defined outside
`init.c`. The spec gives `resolveQueue(device, index) -> handle`, failing if the
index is unreserved or the device is out of range; queue 0 is always present
and indices from 1 on are the user-reserved ones, the same on every device. -/
def THCState_getDeviceStream (state : THCState) (device stream : Int) :
    Except Err cudaStream_t :=
  if device < 0 ∨ (state.numDevices : Int) ≤ device then .error .validation
  else if stream < 0 ∨ (state.numUserStreams : Int) < stream then .error .validation
  else .ok ⟨device, stream⟩

/-- A state-changing CUDA runtime call, with its arguments. -/
inductive CudaCall where
  | setDevice (device : Int)
  | eventCreate (event : cudaEvent_t)
  | eventRecord (event : cudaEvent_t) (stream : cudaStream_t)
  | streamWaitEvent (stream : cudaStream_t) (event : cudaEvent_t)
  | eventDestroy (event : cudaEvent_t)
  deriving DecidableEq, Repr

/-- The CUDA runtime as the host thread sees it. -/
structure CudaRuntime where
  /-- the current device of the host thread -/
  device : Int
  /-- the state-changing calls that succeeded so far, oldest first -/
  calls : List CudaCall
  /-- the handle the next `cudaEventCreateWithFlags` returns -/
  nextEvent : Nat
  /-- how many more runtime calls succeed; `none`: all of them -/
  budget : Option Nat
  deriving DecidableEq, Repr

/-- One runtime call is attempted: `none` when it reports an error. -/
def CudaRuntime.spend (w : CudaRuntime) : Option CudaRuntime :=
  match w.budget with
  | none => some w
  | some 0 => none
  | some (n + 1) => some { w with budget := some n }

/-- The effect of a successful state-changing call. -/
def CudaRuntime.apply (w : CudaRuntime) (c : CudaCall) : CudaRuntime :=
  { w with
    calls := w.calls ++ [c]
    device := match c with
      | .setDevice d => d
      | _ => w.device
    nextEvent := match c with
      | .eventCreate _ => w.nextEvent + 1
      | _ => w.nextEvent }

/-- A computation against the CUDA runtime that may abort. The runtime state
at the abort is kept. -/
def Cuda (α : Type) : Type := CudaRuntime → Except Err α × CudaRuntime

/-- Sequencing: an abort skips the rest. -/
def Cuda.bind {α β : Type} (m : Cuda α) (f : α → Cuda β) : Cuda β := fun w =>
  match m w with
  | (.ok a, w') => f a w'
  | (.error e, w') => (.error e, w')

instance : Monad Cuda where
  pure a := fun w => (.ok a, w)
  bind := Cuda.bind

/-- An argument check inside a runtime computation. -/
def Cuda.check {α : Type} (r : Except Err α) : Cuda α := fun w => (r, w)

/-- A state-changing runtime call under `THCudaCheck`. -/
def cudaIssue (c : CudaCall) : Cuda Unit := fun w =>
  match w.spend with
  | none => (.error .runtime, w)
  | some w' => (.ok (), w'.apply c)

/-- `THCudaCheck(cudaGetDevice(&dev))`. -/
def cudaGetDevice : Cuda Int := fun w =>
  match w.spend with
  | none => (.error .runtime, w)
  | some w' => (.ok w'.device, w')

/-- `THCudaCheck(cudaSetDevice(device))`. -/
def cudaSetDevice (device : Int) : Cuda Unit := cudaIssue (.setDevice device)

/-- `THCudaCheck(cudaEventCreateWithFlags(&event, cudaEventDisableTiming))`. -/
def cudaEventCreateWithFlags : Cuda cudaEvent_t := fun w =>
  match cudaIssue (.eventCreate w.nextEvent) w with
  | (.ok _, w') => (.ok w.nextEvent, w')
  | (.error e, w') => (.error e, w')

/-- `THCudaCheck(cudaEventRecord(event, stream))`. -/
def cudaEventRecord (event : cudaEvent_t) (stream : cudaStream_t) : Cuda Unit :=
  cudaIssue (.eventRecord event stream)

/-- `THCudaCheck(cudaStreamWaitEvent(stream, event, 0))`. -/
def cudaStreamWaitEvent (stream : cudaStream_t) (event : cudaEvent_t) : Cuda Unit :=
  cudaIssue (.streamWaitEvent stream event)

/-- `THCudaCheck(cudaEventDestroy(event))`. -/
def cudaEventDestroy (event : cudaEvent_t) : Cuda Unit := cudaIssue (.eventDestroy event)

/-- `luaL_checknumber`: raises unless the argument is a number. -/
def luaL_checknumber (L : lua_State) (v : LuaValue) : Except Err ℚ :=
  if lua_isnumber L v then .ok (lua_tonumber L v) else .error .validation

/-! ## Iteration utilities (`init.c`, lines 15 to 185) -/

/-- The `while (lua_next ...)` loop of `checkAndCountListOfStreams`. -/
def checkAndCountListOfStreams.loop (L : lua_State) (state : THCState) (device : Int) :
    List (LuaValue × LuaValue) → Int → Except Err Int
  | [], streams => .ok streams
  | (_, v) :: rest, streams =>
    if !lua_isnumber L v then .error .validation
    else
      let streamId := toCInt (lua_tonumber L v)
      match THCState_getDeviceStream state device streamId with
      | .error e => .error e
      | .ok _ => checkAndCountListOfStreams.loop L state device rest (streams + 1)

/-- `checkAndCountListOfStreams`. -/
def checkAndCountListOfStreams (L : lua_State) (state : THCState) (arg : LuaValue)
    (device : Int) : Except Err Int :=
  if !lua_istable arg then .error .validation
  else checkAndCountListOfStreams.loop L state device (lua_entries arg) 0

/-- The `while (lua_next ...)` loop of `checkAndCountListOfGPUStreamPairs`,
on the pair (`*gpus`, `*streams`). -/
def checkAndCountListOfGPUStreamPairs.loop (L : lua_State) (state : THCState) :
    List (LuaValue × LuaValue) → Int × Int → Except Err (Int × Int)
  | [], acc => .ok acc
  | (k, v) :: rest, (gpus, streams) =>
    if !lua_isnumber L k || !lua_istable v then .error .validation
    else
      let device := toCInt (lua_tonumber L k) - 1
      if device < 0 ∨ device ≥ THCState_getNumDevices state then .error .validation
      else
        match checkAndCountListOfStreams L state v device with
        | .error e => .error e
        | .ok n =>
          checkAndCountListOfGPUStreamPairs.loop L state rest (gpus + 1, streams + n)

/-- `checkAndCountListOfGPUStreamPairs`; returns (`*gpus`, `*streams`). -/
def checkAndCountListOfGPUStreamPairs (L : lua_State) (state : THCState) (arg : LuaValue) :
    Except Err (Int × Int) :=
  if !lua_istable arg then .error .validation
  else checkAndCountListOfGPUStreamPairs.loop L state (lua_entries arg) (0, 0)

/-- The record loop of `createSingleDeviceEvent`. -/
def createSingleDeviceEvent.loop (L : lua_State) (state : THCState) (device : Int)
    (event : cudaEvent_t) : List (LuaValue × LuaValue) → Cuda Unit
  | [] => pure ()
  | (_, v) :: rest => do
    let streamId := toCInt (lua_tonumber L v)
    let streamWaitingOn ← Cuda.check (THCState_getDeviceStream state device streamId)
    cudaEventRecord event streamWaitingOn
    createSingleDeviceEvent.loop L state device event rest

/-- `createSingleDeviceEvent`; returns `*event`. -/
def createSingleDeviceEvent (L : lua_State) (state : THCState) (arg : LuaValue)
    (device : Int) : Cuda cudaEvent_t := do
  let event ← cudaEventCreateWithFlags
  createSingleDeviceEvent.loop L state device event (lua_entries arg)
  pure event

/-- The loop of `createMultiDeviceEvents`; `events` is the filled prefix
`events[0 .. gpu-1]` of the array. -/
def createMultiDeviceEvents.loop (L : lua_State) (state : THCState) :
    List (LuaValue × LuaValue) → List cudaEvent_t → Cuda (List cudaEvent_t)
  | [], events => pure events
  | (k, v) :: rest, events => do
    let device := toCInt (lua_tonumber L k) - 1
    cudaSetDevice device
    let event ← createSingleDeviceEvent L state v device
    createMultiDeviceEvents.loop L state rest (events ++ [event])

/-- `createMultiDeviceEvents`; returns the filled `events` array. -/
def createMultiDeviceEvents (L : lua_State) (state : THCState) (arg : LuaValue) :
    Cuda (List cudaEvent_t) :=
  createMultiDeviceEvents.loop L state (lua_entries arg) []

/-- The loop of `waitSingleDeviceEvent`. -/
def waitSingleDeviceEvent.loop (L : lua_State) (state : THCState) (device : Int)
    (event : cudaEvent_t) : List (LuaValue × LuaValue) → Cuda Unit
  | [] => pure ()
  | (_, v) :: rest => do
    let streamId := toCInt (lua_tonumber L v)
    let stream ← Cuda.check (THCState_getDeviceStream state device streamId)
    cudaStreamWaitEvent stream event
    waitSingleDeviceEvent.loop L state device event rest

/-- `waitSingleDeviceEvent`. -/
def waitSingleDeviceEvent (L : lua_State) (state : THCState) (arg : LuaValue)
    (device : Int) (event : cudaEvent_t) : Cuda Unit :=
  waitSingleDeviceEvent.loop L state device event (lua_entries arg)

/-- The loop `for (int i = 0; i < gpus; ++i) cudaStreamWaitEvent(stream, events[i], 0)`,
entered with `i = 0` as `waitAllEvents stream events (List.range gpus)`. -/
def waitAllEvents (stream : cudaStream_t) (events : List cudaEvent_t) : List Nat → Cuda Unit
  | [] => pure ()
  | i :: is => do
    cudaStreamWaitEvent stream (events.getD i 0)
    waitAllEvents stream events is

/-- The inner loop of `waitMultiDeviceEvents`, over one device's streams. -/
def waitMultiDeviceEvents.inner (L : lua_State) (state : THCState) (device : Int)
    (events : List cudaEvent_t) (gpus : Int) : List (LuaValue × LuaValue) → Cuda Unit
  | [] => pure ()
  | (_, v) :: rest => do
    let streamId := toCInt (lua_tonumber L v)
    let stream ← Cuda.check (THCState_getDeviceStream state device streamId)
    waitAllEvents stream events (List.range gpus.toNat)
    waitMultiDeviceEvents.inner L state device events gpus rest

/-- The outer loop of `waitMultiDeviceEvents`. -/
def waitMultiDeviceEvents.loop (L : lua_State) (state : THCState)
    (events : List cudaEvent_t) (gpus : Int) : List (LuaValue × LuaValue) → Cuda Unit
  | [] => pure ()
  | (k, v) :: rest => do
    let device := toCInt (lua_tonumber L k) - 1
    cudaSetDevice device
    waitMultiDeviceEvents.inner L state device events gpus (lua_entries v)
    waitMultiDeviceEvents.loop L state events gpus rest

/-- `waitMultiDeviceEvents`. -/
def waitMultiDeviceEvents (L : lua_State) (state : THCState) (arg : LuaValue)
    (events : List cudaEvent_t) (gpus : Int) : Cuda Unit :=
  waitMultiDeviceEvents.loop L state events gpus (lua_entries arg)

/-- The loop `for (int i = 0; i < gpus; ++i) cudaEventDestroy(events[i])`. -/
def destroyAllEvents (events : List cudaEvent_t) : List Nat → Cuda Unit
  | [] => pure ()
  | i :: is => do
    cudaEventDestroy (events.getD i 0)
    destroyAllEvents events is

/-! ## The four coordination entry points -/

/-- `cutorch_streamWaitFor(waiterStream, {streams...})`. -/
def cutorch_streamWaitFor (L : lua_State) (state : THCState) (arg1 arg2 : LuaValue) :
    Cuda Unit := do
  let curDev ← cudaGetDevice
  let waitingId ← Cuda.check (luaL_checknumber L arg1)
  let streamWaiting ← Cuda.check (THCState_getDeviceStream state curDev (toCInt waitingId))
  let streams ← Cuda.check (checkAndCountListOfStreams L state arg2 curDev)
  if streams < 1 then
    pure ()
  else do
    let event ← createSingleDeviceEvent L state arg2 curDev
    cudaStreamWaitEvent streamWaiting event
    cudaEventDestroy event

/-- `cutorch_streamWaitForMultiDevice(gpuWaiter, streamWaiter, {[gpu]={streams...}})`. -/
def cutorch_streamWaitForMultiDevice (L : lua_State) (state : THCState)
    (arg1 arg2 arg3 : LuaValue) : Cuda Unit := do
  let prevDev ← cudaGetDevice
  let n1 ← Cuda.check (luaL_checknumber L arg1)
  let gpuWaiter := toCInt n1 - 1
  let n2 ← Cuda.check (luaL_checknumber L arg2)
  let streamWaiter := toCInt n2
  let streamWaiting ← Cuda.check (THCState_getDeviceStream state gpuWaiter streamWaiter)
  let (gpus, streams) ← Cuda.check (checkAndCountListOfGPUStreamPairs L state arg3)
  if streams < 2 then
    pure ()
  else do
    let events ← createMultiDeviceEvents L state arg3
    cudaSetDevice gpuWaiter
    waitAllEvents streamWaiting events (List.range gpus.toNat)
    destroyAllEvents events (List.range gpus.toNat)
    cudaSetDevice prevDev

/-- `cutorch_streamBarrier({streams...})`. -/
def cutorch_streamBarrier (L : lua_State) (state : THCState) (arg1 : LuaValue) :
    Cuda Unit := do
  let curDev ← cudaGetDevice
  let streams ← Cuda.check (checkAndCountListOfStreams L state arg1 curDev)
  if streams < 2 then
    pure ()
  else do
    let event ← createSingleDeviceEvent L state arg1 curDev
    waitSingleDeviceEvent L state arg1 curDev event
    cudaEventDestroy event

/-- `cutorch_streamBarrierMultiDevice({[gpu]={streams...}})`. -/
def cutorch_streamBarrierMultiDevice (L : lua_State) (state : THCState) (arg1 : LuaValue) :
    Cuda Unit := do
  let prevDev ← cudaGetDevice
  let (gpus, streams) ← Cuda.check (checkAndCountListOfGPUStreamPairs L state arg1)
  if streams < 2 then
    pure ()
  else do
    let events ← createMultiDeviceEvents L state arg1
    waitMultiDeviceEvents L state arg1 events gpus
    destroyAllEvents events (List.range gpus.toNat)
    cudaSetDevice prevDev

/-! ## Vocabulary of the statements -/

/-- The zero-based device a group key denotes: `(int) lua_tonumber(L, key) - 1`. -/
def deviceOf (L : lua_State) (k : LuaValue) : Int := toCInt (lua_tonumber L k) - 1

/-- The stream index a list value denotes: `(int) lua_tonumber(L, value)`. -/
def streamIdOf (L : lua_State) (v : LuaValue) : Int := toCInt (lua_tonumber L v)

/-- The queue (device, index) resolves in the registry. -/
def Resolves (state : THCState) (device stream : Int) : Prop :=
  (0 ≤ device ∧ device < state.numDevices) ∧ (0 ≤ stream ∧ stream ≤ state.numUserStreams)

instance (state : THCState) (device stream : Int) : Decidable (Resolves state device stream) := by
  unfold Resolves; infer_instance

/-- Every value of the list is a number whose stream index resolves on `device`. -/
def ValidStreams (L : lua_State) (state : THCState) (device : Int)
    (entries : List (LuaValue × LuaValue)) : Prop :=
  ∀ kv ∈ entries, lua_isnumber L kv.2 = true ∧ Resolves state device (streamIdOf L kv.2)

instance (L : lua_State) (state : THCState) (device : Int)
    (entries : List (LuaValue × LuaValue)) : Decidable (ValidStreams L state device entries) := by
  unfold ValidStreams; infer_instance

/-- Every group has a numeric key that denotes a device in range and a table
value that is a valid stream list on that device. -/
def ValidGroups (L : lua_State) (state : THCState)
    (groups : List (LuaValue × LuaValue)) : Prop :=
  ∀ kv ∈ groups, lua_isnumber L kv.1 = true ∧ lua_istable kv.2 = true ∧
    (0 ≤ deviceOf L kv.1 ∧ deviceOf L kv.1 < state.numDevices) ∧
    ValidStreams L state (deviceOf L kv.1) (lua_entries kv.2)

instance (L : lua_State) (state : THCState)
    (groups : List (LuaValue × LuaValue)) : Decidable (ValidGroups L state groups) := by
  unfold ValidGroups; infer_instance

/-- The number of queues a group table lists in total. -/
def totalStreams (groups : List (LuaValue × LuaValue)) : Nat :=
  (groups.map fun kv => (lua_entries kv.2).length).sum

/-- The zero-based devices of the groups, in traversal order. -/
def devicesOf (L : lua_State) (groups : List (LuaValue × LuaValue)) : List Int :=
  groups.map fun kv => deviceOf L kv.1

/-- The queues (device, index) a group table lists, in traversal order. -/
def queuesOf (L : lua_State) (groups : List (LuaValue × LuaValue)) : List cudaStream_t :=
  groups.flatMap fun kv => (lua_entries kv.2).map fun s => ⟨deviceOf L kv.1, streamIdOf L s.2⟩

/-- The calls made between two runtime states. -/
def callsSince (before after : CudaRuntime) : List CudaCall :=
  after.calls.drop before.calls.length

/-- The call is `cudaEventCreateWithFlags`. -/
def CudaCall.isCreate : CudaCall → Bool
  | .eventCreate _ => true
  | _ => false

/-- The call is `cudaEventRecord`. -/
def CudaCall.isRecord : CudaCall → Bool
  | .eventRecord _ _ => true
  | _ => false

/-- The call is `cudaStreamWaitEvent`. -/
def CudaCall.isWait : CudaCall → Bool
  | .streamWaitEvent _ _ => true
  | _ => false

/-- The call is `cudaEventDestroy`. -/
def CudaCall.isDestroy : CudaCall → Bool
  | .eventDestroy _ => true
  | _ => false

/-- The call is `cudaSetDevice`. -/
def CudaCall.isSetDevice : CudaCall → Bool
  | .setDevice _ => true
  | _ => false

/-- A list of runtime calls issued in order; the first failing one aborts. -/
def runCalls : List CudaCall → Cuda Unit
  | [] => pure ()
  | c :: cs => do
    cudaIssue c
    runCalls cs

/-- The runtime state after the calls all succeeded, budget aside. -/
def CudaRuntime.applyAll (w : CudaRuntime) (cs : List CudaCall) : CudaRuntime :=
  cs.foldl CudaRuntime.apply w

/-- The runtime state with another budget. -/
def CudaRuntime.withBudget (w : CudaRuntime) (b : Option Nat) : CudaRuntime :=
  { w with budget := b }

/-- The records of one event on the streams of one list. -/
def recordCalls (L : lua_State) (device : Int) (event : cudaEvent_t)
    (entries : List (LuaValue × LuaValue)) : List CudaCall :=
  entries.map fun kv => .eventRecord event ⟨device, streamIdOf L kv.2⟩

/-- One device of `createMultiDeviceEvents`: switch to it, create its event,
record the event on its listed streams. -/
def groupCreateCalls (L : lua_State) (event : cudaEvent_t) (kv : LuaValue × LuaValue) :
    List CudaCall :=
  .setDevice (deviceOf L kv.1) :: .eventCreate event ::
    recordCalls L (deviceOf L kv.1) event (lua_entries kv.2)

/-- The calls of `createMultiDeviceEvents`: the groups in order, the first
with event handle `first`, the next with `first + 1`, and so on. -/
def createCalls (L : lua_State) : List (LuaValue × LuaValue) → cudaEvent_t → List CudaCall
  | [], _ => []
  | kv :: rest, first => groupCreateCalls L first kv ++ createCalls L rest (first + 1)

/-- The waits of one stream on each of the events, in order. -/
def waitCalls (stream : cudaStream_t) (events : List cudaEvent_t) : List CudaCall :=
  events.map fun e => .streamWaitEvent stream e

/-- One device of `waitMultiDeviceEvents`: switch to it; each listed stream
waits on every event. -/
def groupWaitCalls (L : lua_State) (events : List cudaEvent_t) (kv : LuaValue × LuaValue) :
    List CudaCall :=
  .setDevice (deviceOf L kv.1) ::
    (lua_entries kv.2).flatMap fun s => waitCalls ⟨deviceOf L kv.1, streamIdOf L s.2⟩ events

/-- The destruction of each of the events, in order. -/
def destroyCalls (events : List cudaEvent_t) : List CudaCall :=
  events.map fun e => .eventDestroy e

/-- The calls of a non-trivial `streamWaitFor`: create the event, record it on
each listed stream, make the waiter wait on it, destroy it. -/
def streamWaitForCalls (L : lua_State) (device : Int) (event : cudaEvent_t)
    (waiter : LuaValue) (entries : List (LuaValue × LuaValue)) : List CudaCall :=
  .eventCreate event :: recordCalls L device event entries ++
    [.streamWaitEvent ⟨device, streamIdOf L waiter⟩ event, .eventDestroy event]

/-- The calls of a non-trivial `streamBarrier`: create the event, record it on
each listed stream, make each listed stream wait on it, destroy it. -/
def streamBarrierCalls (L : lua_State) (device : Int) (event : cudaEvent_t)
    (entries : List (LuaValue × LuaValue)) : List CudaCall :=
  .eventCreate event :: recordCalls L device event entries ++
    (entries.map fun kv => .streamWaitEvent ⟨device, streamIdOf L kv.2⟩ event) ++
    [.eventDestroy event]

/-- The calls of a non-trivial `streamWaitForMultiDevice`: per group, switch
device, create and record; switch to the waiter's device and make the waiter
wait on each event; destroy each event; switch back to `prevDev`. -/
def streamWaitForMultiDeviceCalls (L : lua_State) (prevDev : Int) (first : cudaEvent_t)
    (gpuWaiter streamWaiter : LuaValue) (groups : List (LuaValue × LuaValue)) : List CudaCall :=
  createCalls L groups first ++
    .setDevice (deviceOf L gpuWaiter) ::
      waitCalls ⟨deviceOf L gpuWaiter, streamIdOf L streamWaiter⟩
        (List.range' first groups.length) ++
    destroyCalls (List.range' first groups.length) ++ [.setDevice prevDev]

/-- The calls of a non-trivial `streamBarrierMultiDevice`: per group, switch
device, create and record; per group again, switch device and make each listed
stream wait on each event; destroy each event; switch back to `prevDev`. -/
def streamBarrierMultiDeviceCalls (L : lua_State) (prevDev : Int) (first : cudaEvent_t)
    (groups : List (LuaValue × LuaValue)) : List CudaCall :=
  createCalls L groups first ++
    groups.flatMap (groupWaitCalls L (List.range' first groups.length)) ++
    destroyCalls (List.range' first groups.length) ++ [.setDevice prevDev]

/-- The single-device argument checks pass: the stream list is a table of
valid streams of the device. -/
def ValidList (L : lua_State) (state : THCState) (device : Int) (arg : LuaValue) : Prop :=
  lua_istable arg = true ∧ ValidStreams L state device (lua_entries arg)

instance (L : lua_State) (state : THCState) (device : Int) (arg : LuaValue) :
    Decidable (ValidList L state device arg) := by
  unfold ValidList; infer_instance

/-- The waiter of `streamWaitFor` is a number whose stream index resolves on
the device. -/
def ValidWaiter (L : lua_State) (state : THCState) (device : Int) (arg : LuaValue) : Prop :=
  lua_isnumber L arg = true ∧ Resolves state device (streamIdOf L arg)

instance (L : lua_State) (state : THCState) (device : Int) (arg : LuaValue) :
    Decidable (ValidWaiter L state device arg) := by
  unfold ValidWaiter; infer_instance

/-- The waiter of `streamWaitForMultiDevice`: both arguments are numbers and
the stream index resolves on the zero-based device. -/
def ValidMultiWaiter (L : lua_State) (state : THCState) (gpuWaiter streamWaiter : LuaValue) :
    Prop :=
  lua_isnumber L gpuWaiter = true ∧ lua_isnumber L streamWaiter = true ∧
    Resolves state (deviceOf L gpuWaiter) (streamIdOf L streamWaiter)

instance (L : lua_State) (state : THCState) (gpuWaiter streamWaiter : LuaValue) :
    Decidable (ValidMultiWaiter L state gpuWaiter streamWaiter) := by
  unfold ValidMultiWaiter; infer_instance

/-- The multi-device argument checks pass: the argument is a table of valid groups. -/
def ValidTable (L : lua_State) (state : THCState) (arg : LuaValue) : Prop :=
  lua_istable arg = true ∧ ValidGroups L state (lua_entries arg)

instance (L : lua_State) (state : THCState) (arg : LuaValue) :
    Decidable (ValidTable L state arg) := by
  unfold ValidTable; infer_instance

/-- The common shape of the four entry points: `cudaGetDevice`, then the
argument checks, then nothing at all on a trivial input and the calls of
`plan` otherwise. -/
def entryPoint (valid trivial : Prop) [Decidable valid] [Decidable trivial]
    (plan : List CudaCall) : Cuda Unit := fun w =>
  match w.spend with
  | none => (.error .runtime, w)
  | some w1 =>
    if valid then
      if trivial then (.ok (), w1) else runCalls plan w1
    else (.error .validation, w1)

/-- Some listed stream index does not resolve on the device. -/
def HasBadStream (L : lua_State) (state : THCState) (device : Int)
    (entries : List (LuaValue × LuaValue)) : Prop :=
  ∃ kv ∈ entries, ¬ Resolves state device (streamIdOf L kv.2)

instance (L : lua_State) (state : THCState) (device : Int)
    (entries : List (LuaValue × LuaValue)) : Decidable (HasBadStream L state device entries) := by
  unfold HasBadStream; infer_instance

/-- Some group's key denotes a device outside `[0, numDevices)`, or some stream
index a group lists does not resolve on the group's device. -/
def HasBadGroup (L : lua_State) (state : THCState)
    (groups : List (LuaValue × LuaValue)) : Prop :=
  ∃ kv ∈ groups, ¬ (0 ≤ deviceOf L kv.1 ∧ deviceOf L kv.1 < state.numDevices) ∨
    HasBadStream L state (deviceOf L kv.1) (lua_entries kv.2)

instance (L : lua_State) (state : THCState)
    (groups : List (LuaValue × LuaValue)) : Decidable (HasBadGroup L state groups) := by
  unfold HasBadGroup; infer_instance

/-- The call that started in `w` and ended as `r` was rejected: it failed, with
a validation error as soon as `cudaGetDevice` itself succeeded, and it made no
state-changing runtime call, so no event was created, recorded, waited on or
destroyed and the current device was not switched. -/
def Rejected (w : CudaRuntime) (r : Except Err Unit × CudaRuntime) : Prop :=
  (w.budget ≠ some 0 → r.1 = .error .validation) ∧ r.1 ≠ .ok () ∧
    callsSince w r.2 = [] ∧ r.2.device = w.device

/-- Event lifetimes along a list of calls, given the events created and the
events destroyed so far. A creation must be of an event not created before; a
record, a wait and a destruction must be of an event created and not yet
destroyed; at the end every created event must have been destroyed. -/
def lifetimes : List CudaCall → List cudaEvent_t → List cudaEvent_t → Bool
  | [], created, destroyed => created.all fun e => decide (e ∈ destroyed)
  | .setDevice _ :: cs, created, destroyed => lifetimes cs created destroyed
  | .eventCreate e :: cs, created, destroyed =>
    decide (e ∉ created) && lifetimes cs (e :: created) destroyed
  | .eventRecord e _ :: cs, created, destroyed =>
    decide (e ∈ created) && decide (e ∉ destroyed) && lifetimes cs created destroyed
  | .streamWaitEvent _ e :: cs, created, destroyed =>
    decide (e ∈ created) && decide (e ∉ destroyed) && lifetimes cs created destroyed
  | .eventDestroy e :: cs, created, destroyed =>
    decide (e ∈ created) && decide (e ∉ destroyed) && lifetimes cs created (e :: destroyed)

/-- The calls keep every event local: each event they destroy, record or wait
on was created by them before, each created event is destroyed exactly once,
after its last use, and none is left alive at the end. -/
def LocalLifetimes (cs : List CudaCall) : Prop := lifetimes cs [] [] = true

instance (cs : List CudaCall) : Decidable (LocalLifetimes cs) := by
  unfold LocalLifetimes; infer_instance

/-- The call uses only events that are alive, or is a device switch. -/
def UsesLive (created destroyed : List cudaEvent_t) : CudaCall → Prop
  | .setDevice _ => True
  | .eventRecord e _ => e ∈ created ∧ e ∉ destroyed
  | .streamWaitEvent _ e => e ∈ created ∧ e ∉ destroyed
  | .eventCreate _ => False
  | .eventDestroy _ => False

/-- The value is a Lua number (not a string) whose value is an integer. -/
def isIntegerNumber : LuaValue → Bool
  | .number x => decide (x.den = 1)
  | _ => false

/-! ## Concrete inputs -/

/-- A Lua state in which no string converts to a number. -/
def noCoercion : lua_State := ⟨fun _ => none⟩

/-- The entries of the Lua array `{x1, x2, ...}`, keyed from `i` on. -/
def luaEntriesFrom : Nat → List ℚ → List (LuaValue × LuaValue)
  | _, [] => []
  | i, x :: xs => (.number i, .number x) :: luaEntriesFrom (i + 1) xs

/-- The Lua array `{x1, x2, ...}`. -/
def luaList (xs : List ℚ) : LuaValue := .table (luaEntriesFrom 1 xs)

/-- A runtime with current device `d`, no call made yet, that never fails. -/
def idle (d : Int) : CudaRuntime := ⟨d, [], 0, none⟩

/-- The Lua table `{[1] = {1}, [1.5] = {2}}`: two groups whose keys both
truncate to device 0. -/
def twoKeysOneDevice : LuaValue :=
  .table [(.number 1, luaList [1]), (.number (mkRat 3 2), luaList [2])]

/-- The Lua table `{[1] = {}, [2] = {1}}`: two groups, one of them empty, one
listed queue in total. -/
def twoGroupsOneStream : LuaValue :=
  .table [(.number 1, luaList []), (.number 2, luaList [1])]

/-- The Lua table `{[2] = {1, 2}, [3] = {1}}`. -/
def twoDevicesThreeStreams : LuaValue :=
  .table [(.number 2, luaList [1, 2]), (.number 3, luaList [1])]

/-- The current device after the calls, started with device `d` current: the
device of the last `cudaSetDevice` among them, and `d` if there is none. -/
def deviceAfter (d : Int) : List CudaCall → Int
  | [] => d
  | .setDevice d2 :: cs => deviceAfter d2 cs
  | .eventCreate _ :: cs => deviceAfter d cs
  | .eventRecord _ _ :: cs => deviceAfter d cs
  | .streamWaitEvent _ _ :: cs => deviceAfter d cs
  | .eventDestroy _ :: cs => deviceAfter d cs

/-- A runtime with current device `d`, no call made yet, in which the first
`n` runtime calls succeed and the next one reports an error. -/
def failingAfter (d : Int) (n : Nat) : CudaRuntime := ⟨d, [], 0, some n⟩

/-! ## The runtime monad -/

theorem Cuda.bind_apply {α β : Type} (m : Cuda α) (f : α → Cuda β) (w : CudaRuntime) :
    (m >>= f) w = match m w with
      | (.ok a, w') => f a w'
      | (.error e, w') => (.error e, w') := rfl

theorem Cuda.pure_apply {α : Type} (a : α) (w : CudaRuntime) :
    (pure a : Cuda α) w = (.ok a, w) := rfl

theorem Cuda.check_ok_bind {α β : Type} (a : α) (f : α → Cuda β) :
    (Cuda.check (.ok a) >>= f) = f a := rfl

theorem Cuda.check_error_bind {α β : Type} (e : Err) (f : α → Cuda β) (w : CudaRuntime) :
    (Cuda.check (.error e) >>= f) w = (.error e, w) := rfl

theorem applyAll_nil (w : CudaRuntime) : w.applyAll [] = w := rfl

theorem applyAll_cons (w : CudaRuntime) (c : CudaCall) (cs : List CudaCall) :
    w.applyAll (c :: cs) = (w.apply c).applyAll cs := rfl

theorem applyAll_append (w : CudaRuntime) (cs ds : List CudaCall) :
    w.applyAll (cs ++ ds) = (w.applyAll cs).applyAll ds := by
  simp [CudaRuntime.applyAll, List.foldl_append]

theorem applyAll_calls (w : CudaRuntime) (cs : List CudaCall) :
    (w.applyAll cs).calls = w.calls ++ cs := by
  induction cs generalizing w with
  | nil => simp [applyAll_nil]
  | cons c cs ih => simp [applyAll_cons, ih, CudaRuntime.apply]

theorem applyAll_budget (w : CudaRuntime) (cs : List CudaCall) :
    (w.applyAll cs).budget = w.budget := by
  induction cs generalizing w with
  | nil => rfl
  | cons c cs ih => simp [applyAll_cons, ih, CudaRuntime.apply]

theorem applyAll_nextEvent (w : CudaRuntime) (cs : List CudaCall) :
    (w.applyAll cs).nextEvent = w.nextEvent + cs.countP CudaCall.isCreate := by
  induction cs generalizing w with
  | nil => simp [applyAll_nil]
  | cons c cs ih =>
    cases c
    all_goals
      simp [applyAll_cons, ih, CudaRuntime.apply, CudaCall.isCreate, List.countP_cons]
    omega

theorem withBudget_applyAll (w : CudaRuntime) (b : Option Nat) (cs : List CudaCall) :
    (w.withBudget b).applyAll cs = (w.applyAll cs).withBudget b := by
  induction cs generalizing w with
  | nil => rfl
  | cons c cs ih =>
    simp only [applyAll_cons]
    rw [← ih]
    rfl

theorem withBudget_calls (w : CudaRuntime) (b : Option Nat) :
    (w.withBudget b).calls = w.calls := rfl

theorem withBudget_device (w : CudaRuntime) (b : Option Nat) :
    (w.withBudget b).device = w.device := rfl

theorem withBudget_nextEvent (w : CudaRuntime) (b : Option Nat) :
    (w.withBudget b).nextEvent = w.nextEvent := rfl

theorem withBudget_budget (w : CudaRuntime) (b : Option Nat) :
    (w.withBudget b).budget = b := rfl

theorem withBudget_withBudget (w : CudaRuntime) (b c : Option Nat) :
    (w.withBudget b).withBudget c = w.withBudget c := rfl

theorem withBudget_self (w : CudaRuntime) : w.withBudget w.budget = w := rfl

theorem withBudget_apply (w : CudaRuntime) (b : Option Nat) (c : CudaCall) :
    (w.withBudget b).apply c = (w.apply c).withBudget b := rfl

theorem spend_none (w : CudaRuntime) (h : w.budget = none) : w.spend = some w := by
  simp [CudaRuntime.spend, h]

theorem spend_zero (w : CudaRuntime) (h : w.budget = some 0) : w.spend = none := by
  simp [CudaRuntime.spend, h]

theorem spend_succ (w : CudaRuntime) (b : Nat) (h : w.budget = some (b + 1)) :
    w.spend = some (w.withBudget (some b)) := by
  simp [CudaRuntime.spend, h, CudaRuntime.withBudget]

/-- What a sequence of runtime calls does, by the budget: with enough budget
all of them are made; otherwise the ones the budget covers are made and the
next one aborts the sequence. -/
theorem runCalls_eq (cs : List CudaCall) (w : CudaRuntime) :
    runCalls cs w = match w.budget with
      | none => (.ok (), w.applyAll cs)
      | some b =>
        if cs.length ≤ b then (.ok (), (w.applyAll cs).withBudget (some (b - cs.length)))
        else (.error .runtime, (w.applyAll (cs.take b)).withBudget (some 0)) := by
  induction cs generalizing w with
  | nil =>
    cases h : w.budget with
    | none => simp [runCalls, Cuda.pure_apply, applyAll_nil]
    | some b =>
      simp only [runCalls, Cuda.pure_apply, applyAll_nil, List.length_nil, Nat.zero_le,
        if_true, Nat.sub_zero]
      rw [← h, withBudget_self]
  | cons c cs ih =>
    cases h : w.budget with
    | none =>
      simp [runCalls, Cuda.bind_apply, cudaIssue, spend_none w h, ih, applyAll_cons,
        applyAll_budget, CudaRuntime.apply, h]
    | some b =>
      cases b with
      | zero =>
        simp only [runCalls, Cuda.bind_apply, cudaIssue, spend_zero w h, List.length_cons,
          List.take_zero, applyAll_nil]
        rw [← h, withBudget_self]
        simp
      | succ b =>
        simp only [runCalls, Cuda.bind_apply, cudaIssue, spend_succ w b h, ih,
          withBudget_apply, withBudget_budget, List.length_cons, Nat.add_le_add_iff_right,
          List.take_succ_cons, Nat.add_sub_add_right, applyAll_cons, withBudget_applyAll,
          withBudget_withBudget]

theorem runCalls_nil : runCalls [] = pure () := rfl

theorem runCalls_cons (c : CudaCall) (cs : List CudaCall) :
    runCalls (c :: cs) = (cudaIssue c >>= fun _ => runCalls cs) := rfl

theorem runCalls_append (cs ds : List CudaCall) :
    runCalls (cs ++ ds) = (runCalls cs >>= fun _ => runCalls ds) := by
  induction cs with
  | nil => rfl
  | cons c cs ih =>
    funext w
    simp only [List.cons_append, runCalls_cons, Cuda.bind_apply, ih]
    rcases cudaIssue c w with ⟨r, w'⟩
    cases r <;> rfl

theorem runCalls_singleton (c : CudaCall) : runCalls [c] = cudaIssue c := by
  funext w
  simp only [runCalls_cons, runCalls_nil, Cuda.bind_apply, Cuda.pure_apply]
  rcases cudaIssue c w with ⟨r, w'⟩
  cases r <;> rfl

/-! ## Validation -/

theorem getDeviceStream_of_resolves {state : THCState} {device stream : Int}
    (h : Resolves state device stream) :
    THCState_getDeviceStream state device stream = .ok ⟨device, stream⟩ := by
  obtain ⟨⟨h1, h2⟩, h3, h4⟩ := h
  have a : ¬ (device < 0 ∨ (state.numDevices : Int) ≤ device) := by omega
  have b : ¬ (stream < 0 ∨ (state.numUserStreams : Int) < stream) := by omega
  simp [THCState_getDeviceStream, a, b]

theorem getDeviceStream_of_not_resolves {state : THCState} {device stream : Int}
    (h : ¬ Resolves state device stream) :
    THCState_getDeviceStream state device stream = .error .validation := by
  unfold THCState_getDeviceStream
  split
  · rfl
  · split
    · rfl
    · exact absurd (by unfold Resolves; omega) h

/-- `checkAndCountListOfStreams` accepts exactly the valid stream lists and
counts their entries. -/
theorem checkStreams_loop_eq (L : lua_State) (state : THCState) (device : Int)
    (entries : List (LuaValue × LuaValue)) (streams : Int) :
    checkAndCountListOfStreams.loop L state device entries streams =
      if ValidStreams L state device entries then .ok (streams + entries.length)
      else .error .validation := by
  induction entries generalizing streams with
  | nil => simp [checkAndCountListOfStreams.loop, ValidStreams]
  | cons kv rest ih =>
    obtain ⟨k, v⟩ := kv
    unfold checkAndCountListOfStreams.loop
    by_cases hn : lua_isnumber L v = true
    · by_cases hr : Resolves state device (streamIdOf L v)
      · have hr2 := getDeviceStream_of_resolves hr
        unfold streamIdOf at hr2
        simp only [hn, hr2, ih, Bool.not_true, Bool.false_eq_true, if_false]
        have : ValidStreams L state device ((k, v) :: rest) ↔ ValidStreams L state device rest := by
          simp [ValidStreams, hn, hr]
        simp only [this, List.length_cons, Nat.cast_add, Nat.cast_one]
        split
        · congr 1; omega
        · rfl
      · have hr2 := getDeviceStream_of_not_resolves hr
        unfold streamIdOf at hr2
        have : ¬ ValidStreams L state device ((k, v) :: rest) := by
          simp [ValidStreams, hr]
        simp [hn, hr2, this]
    · have : ¬ ValidStreams L state device ((k, v) :: rest) := by
        simp [ValidStreams, hn]
      simp [hn, this]

theorem checkStreams_eq (L : lua_State) (state : THCState) (arg : LuaValue) (device : Int) :
    checkAndCountListOfStreams L state arg device =
      if lua_istable arg = true ∧ ValidStreams L state device (lua_entries arg) then
        .ok ((lua_entries arg).length : Int)
      else .error .validation := by
  unfold checkAndCountListOfStreams
  by_cases ht : lua_istable arg = true
  · simp [ht, checkStreams_loop_eq]
  · simp [ht]

/-- `checkAndCountListOfGPUStreamPairs` accepts exactly the valid group tables
and counts their groups and their listed streams. -/
theorem checkPairs_loop_eq (L : lua_State) (state : THCState)
    (groups : List (LuaValue × LuaValue)) (gpus streams : Int) :
    checkAndCountListOfGPUStreamPairs.loop L state groups (gpus, streams) =
      if ValidGroups L state groups then
        .ok (gpus + groups.length, streams + totalStreams groups)
      else .error .validation := by
  induction groups generalizing gpus streams with
  | nil => simp [checkAndCountListOfGPUStreamPairs.loop, ValidGroups, totalStreams]
  | cons kv rest ih =>
    obtain ⟨k, v⟩ := kv
    unfold checkAndCountListOfGPUStreamPairs.loop
    by_cases hv : lua_isnumber L k = true ∧ lua_istable v = true ∧
        (0 ≤ deviceOf L k ∧ deviceOf L k < state.numDevices) ∧
        ValidStreams L state (deviceOf L k) (lua_entries v)
    · obtain ⟨hk, ht, hd, hs⟩ := hv
      have hd2 : ¬ (toCInt (lua_tonumber L k) - 1 < 0 ∨
          toCInt (lua_tonumber L k) - 1 ≥ THCState_getNumDevices state) := by
        unfold deviceOf at hd; unfold THCState_getNumDevices; omega
      have hs2 : checkAndCountListOfStreams L state v (toCInt (lua_tonumber L k) - 1) =
          .ok ((lua_entries v).length : Int) := by
        rw [checkStreams_eq]; exact if_pos ⟨ht, hs⟩
      have hiff : ValidGroups L state ((k, v) :: rest) ↔ ValidGroups L state rest := by
        simp [ValidGroups, hk, ht, hd, hs]
      simp only [hk, ht, hd2, hs2, ih, hiff, Bool.not_true, Bool.or_self, Bool.false_eq_true,
        if_false]
      split
      · simp only [totalStreams, List.map_cons, List.sum_cons, List.length_cons]
        congr 2 <;> push_cast <;> ring
      · rfl
    · have hnot : ¬ ValidGroups L state ((k, v) :: rest) := by
        intro h
        exact hv (h (k, v) (List.mem_cons_self _ _))
      rw [if_neg hnot]
      by_cases hk : lua_isnumber L k = true
      · by_cases ht : lua_istable v = true
        · by_cases hd : 0 ≤ deviceOf L k ∧ deviceOf L k < state.numDevices
          · have hd2 : ¬ (toCInt (lua_tonumber L k) - 1 < 0 ∨
                toCInt (lua_tonumber L k) - 1 ≥ THCState_getNumDevices state) := by
              unfold deviceOf at hd; unfold THCState_getNumDevices; omega
            have hs : ¬ ValidStreams L state (deviceOf L k) (lua_entries v) :=
              fun hs => hv ⟨hk, ht, hd, hs⟩
            have hs2 : checkAndCountListOfStreams L state v (toCInt (lua_tonumber L k) - 1) =
                .error .validation := by
              rw [checkStreams_eq]; exact if_neg (fun h => hs h.2)
            simp [hk, ht, hd2, hs2]
          · have hd2 : (toCInt (lua_tonumber L k) - 1 < 0 ∨
                toCInt (lua_tonumber L k) - 1 ≥ THCState_getNumDevices state) := by
              unfold deviceOf at hd; unfold THCState_getNumDevices; omega
            simp only [hk, ht, Bool.not_true, Bool.or_self, Bool.false_eq_true, if_false]
            rw [if_pos hd2]
        · simp [hk, ht]
      · simp [hk]

theorem checkPairs_eq (L : lua_State) (state : THCState) (arg : LuaValue) :
    checkAndCountListOfGPUStreamPairs L state arg =
      if lua_istable arg = true ∧ ValidGroups L state (lua_entries arg) then
        .ok (((lua_entries arg).length : Int), (totalStreams (lua_entries arg) : Int))
      else .error .validation := by
  unfold checkAndCountListOfGPUStreamPairs
  by_cases ht : lua_istable arg = true
  · have h := checkPairs_loop_eq L state (lua_entries arg) 0 0
    simp only [zero_add] at h
    simp only [ht, Bool.not_true, Bool.false_eq_true, if_false, true_and]
    exact h
  · simp [ht]

/-! ## The loops as call sequences -/

theorem validStreams_cons {L : lua_State} {state : THCState} {device : Int}
    {kv : LuaValue × LuaValue} {rest : List (LuaValue × LuaValue)}
    (h : ValidStreams L state device (kv :: rest)) :
    Resolves state device (streamIdOf L kv.2) ∧ ValidStreams L state device rest :=
  ⟨(h kv (List.mem_cons_self _ _)).2, fun x hx => h x (List.mem_cons_of_mem _ hx)⟩

theorem validGroups_cons {L : lua_State} {state : THCState}
    {kv : LuaValue × LuaValue} {rest : List (LuaValue × LuaValue)}
    (h : ValidGroups L state (kv :: rest)) :
    ValidStreams L state (deviceOf L kv.1) (lua_entries kv.2) ∧ ValidGroups L state rest :=
  ⟨(h kv (List.mem_cons_self _ _)).2.2.2, fun x hx => h x (List.mem_cons_of_mem _ hx)⟩

/-- On a valid stream list the record loop issues one record per entry. -/
theorem createSingle_loop_eq (L : lua_State) (state : THCState) (device : Int)
    (event : cudaEvent_t) (entries : List (LuaValue × LuaValue))
    (h : ValidStreams L state device entries) :
    createSingleDeviceEvent.loop L state device event entries =
      runCalls (recordCalls L device event entries) := by
  induction entries with
  | nil => rfl
  | cons kv rest ih =>
    obtain ⟨hr, hrest⟩ := validStreams_cons h
    obtain ⟨k, v⟩ := kv
    have hr2 := getDeviceStream_of_resolves hr
    unfold streamIdOf at hr2
    simp only [createSingleDeviceEvent.loop, hr2, Cuda.check_ok_bind, ih hrest, recordCalls,
      List.map_cons, runCalls_cons, cudaEventRecord, streamIdOf]

/-- On a valid stream list the wait loop issues one wait per entry. -/
theorem waitSingle_loop_eq (L : lua_State) (state : THCState) (device : Int)
    (event : cudaEvent_t) (entries : List (LuaValue × LuaValue))
    (h : ValidStreams L state device entries) :
    waitSingleDeviceEvent.loop L state device event entries =
      runCalls (entries.map fun kv => .streamWaitEvent ⟨device, streamIdOf L kv.2⟩ event) := by
  induction entries with
  | nil => rfl
  | cons kv rest ih =>
    obtain ⟨hr, hrest⟩ := validStreams_cons h
    obtain ⟨k, v⟩ := kv
    have hr2 := getDeviceStream_of_resolves hr
    unfold streamIdOf at hr2
    simp only [waitSingleDeviceEvent.loop, hr2, Cuda.check_ok_bind, ih hrest,
      List.map_cons, runCalls_cons, cudaStreamWaitEvent, streamIdOf]

theorem waitAllEvents_eq (stream : cudaStream_t) (events : List cudaEvent_t) (is : List Nat) :
    waitAllEvents stream events is =
      runCalls (is.map fun i => .streamWaitEvent stream (events.getD i 0)) := by
  induction is with
  | nil => rfl
  | cons i is ih =>
    simp only [waitAllEvents, ih, List.map_cons, runCalls_cons, cudaStreamWaitEvent]

theorem destroyAllEvents_eq (events : List cudaEvent_t) (is : List Nat) :
    destroyAllEvents events is = runCalls (is.map fun i => .eventDestroy (events.getD i 0)) := by
  induction is with
  | nil => rfl
  | cons i is ih =>
    simp only [destroyAllEvents, ih, List.map_cons, runCalls_cons, cudaEventDestroy]

theorem map_getD_range (events : List cudaEvent_t) :
    (List.range events.length).map (fun i => events.getD i 0) = events := by
  apply List.ext_getElem
  · simp
  · intro n h1 h2
    simp [List.getD_eq_getElem?_getD, List.getElem?_eq_getElem h2]

/-- With `gpus` the length of `events`, the loop over `i < gpus` waits on each
event once, in order. -/
theorem waitAllEvents_range (stream : cudaStream_t) (events : List cudaEvent_t) :
    waitAllEvents stream events (List.range events.length) =
      runCalls (waitCalls stream events) := by
  rw [waitAllEvents_eq]
  have h := map_getD_range events
  have h2 : (List.range events.length).map
      (fun i => CudaCall.streamWaitEvent stream (events.getD i 0)) =
      ((List.range events.length).map (fun i => events.getD i 0)).map
        (fun e => CudaCall.streamWaitEvent stream e) := by
    rw [List.map_map]; rfl
  rw [h2, h]; rfl

/-- With `gpus` the length of `events`, the loop over `i < gpus` destroys each
event once, in order. -/
theorem destroyAllEvents_range (events : List cudaEvent_t) :
    destroyAllEvents events (List.range events.length) = runCalls (destroyCalls events) := by
  rw [destroyAllEvents_eq]
  have h := map_getD_range events
  have h2 : (List.range events.length).map
      (fun i => CudaCall.eventDestroy (events.getD i 0)) =
      ((List.range events.length).map (fun i => events.getD i 0)).map
        (fun e => CudaCall.eventDestroy e) := by
    rw [List.map_map]; rfl
  rw [h2, h]; rfl

/-- On a valid stream list the inner wait loop of `waitMultiDeviceEvents`
makes each listed stream wait on every event. -/
theorem waitMulti_inner_eq (L : lua_State) (state : THCState) (device : Int)
    (events : List cudaEvent_t) (entries : List (LuaValue × LuaValue))
    (h : ValidStreams L state device entries) :
    waitMultiDeviceEvents.inner L state device events (events.length : Int) entries =
      runCalls (entries.flatMap fun s => waitCalls ⟨device, streamIdOf L s.2⟩ events) := by
  induction entries with
  | nil => rfl
  | cons kv rest ih =>
    obtain ⟨hr, hrest⟩ := validStreams_cons h
    obtain ⟨k, v⟩ := kv
    have hr2 := getDeviceStream_of_resolves hr
    unfold streamIdOf at hr2
    simp only [waitMultiDeviceEvents.inner, hr2, Cuda.check_ok_bind, ih hrest,
      List.flatMap_cons, runCalls_append, Int.toNat_ofNat, waitAllEvents_range, streamIdOf]

/-- On a valid group table the outer wait loop of `waitMultiDeviceEvents`
switches to each group's device and makes its streams wait on every event. -/
theorem waitMulti_loop_eq (L : lua_State) (state : THCState)
    (events : List cudaEvent_t) (groups : List (LuaValue × LuaValue))
    (h : ValidGroups L state groups) :
    waitMultiDeviceEvents.loop L state events (events.length : Int) groups =
      runCalls (groups.flatMap (groupWaitCalls L events)) := by
  induction groups with
  | nil => rfl
  | cons kv rest ih =>
    obtain ⟨hs, hrest⟩ := validGroups_cons h
    obtain ⟨k, v⟩ := kv
    have hi := waitMulti_inner_eq L state (deviceOf L k) events (lua_entries v) hs
    unfold deviceOf at hi
    simp only [waitMultiDeviceEvents.loop, hi, ih hrest, List.flatMap_cons, groupWaitCalls,
      List.cons_append, runCalls_cons, runCalls_append, cudaSetDevice, deviceOf]

theorem runCalls_ok_state {cs : List CudaCall} {w w' : CudaRuntime} {u : Unit}
    (h : runCalls cs w = (.ok u, w')) : ∃ b, w' = (w.applyAll cs).withBudget b := by
  rw [runCalls_eq] at h
  cases hb : w.budget with
  | none =>
    rw [hb] at h
    simp only [Prod.mk.injEq] at h
    exact ⟨(w.applyAll cs).budget, by rw [withBudget_self]; exact h.2.symm⟩
  | some b =>
    rw [hb] at h
    simp only at h
    split at h
    · simp only [Prod.mk.injEq] at h
      exact ⟨_, h.2.symm⟩
    · simp at h

theorem runCalls_ok_of_unbounded (cs : List CudaCall) (w : CudaRuntime) (h : w.budget = none) :
    runCalls cs w = (.ok (), w.applyAll cs) := by
  rw [runCalls_eq, h]

theorem spend_eq_some {w w1 : CudaRuntime} (h : w.spend = some w1) :
    ∃ b, w1 = w.withBudget b := by
  unfold CudaRuntime.spend at h
  split at h
  · exact ⟨w.budget, by simp only [Option.some.injEq] at h; rw [← h]; rfl⟩
  · simp at h
  · simp only [Option.some.injEq] at h
    exact ⟨_, h.symm⟩

/-- On a valid stream list `createSingleDeviceEvent` creates the next fresh
event, records it once per entry, and returns it. -/
theorem createSingle_eq (L : lua_State) (state : THCState) (arg : LuaValue) (device : Int)
    (w : CudaRuntime) (h : ValidStreams L state device (lua_entries arg)) :
    createSingleDeviceEvent L state arg device w =
      match runCalls (.eventCreate w.nextEvent ::
          recordCalls L device w.nextEvent (lua_entries arg)) w with
      | (.ok _, w') => (.ok w.nextEvent, w')
      | (.error e, w') => (.error e, w') := by
  simp only [createSingleDeviceEvent, createSingle_loop_eq L state device _ _ h, Cuda.bind_apply,
    cudaEventCreateWithFlags, runCalls_cons]
  rcases cudaIssue (CudaCall.eventCreate w.nextEvent) w with ⟨r, w1⟩
  cases r with
  | error e => rfl
  | ok a =>
    simp only
    rcases runCalls (recordCalls L device w.nextEvent (lua_entries arg)) w1 with ⟨r2, w2⟩
    cases r2 <;> rfl

theorem countP_isCreate_recordCalls (L : lua_State) (device : Int) (event : cudaEvent_t)
    (entries : List (LuaValue × LuaValue)) :
    (recordCalls L device event entries).countP CudaCall.isCreate = 0 := by
  induction entries with
  | nil => rfl
  | cons kv rest ih =>
    simp only [recordCalls, List.map_cons] at ih ⊢
    rw [List.countP_cons_of_neg]
    · exact ih
    · simp [CudaCall.isCreate]

/-- On a valid group table `createMultiDeviceEvents` makes the calls of
`createCalls` and fills the array with consecutive fresh handles, one per group. -/
theorem createMulti_loop_eq (L : lua_State) (state : THCState)
    (groups : List (LuaValue × LuaValue)) (events : List cudaEvent_t) (w : CudaRuntime)
    (h : ValidGroups L state groups) :
    createMultiDeviceEvents.loop L state groups events w =
      match runCalls (createCalls L groups w.nextEvent) w with
      | (.ok _, w') => (.ok (events ++ List.range' w.nextEvent groups.length), w')
      | (.error e, w') => (.error e, w') := by
  induction groups generalizing events w with
  | nil => simp [createMultiDeviceEvents.loop, createCalls, runCalls_nil, Cuda.pure_apply]
  | cons kv rest ih =>
    obtain ⟨hs, hrest⟩ := validGroups_cons h
    obtain ⟨k, v⟩ := kv
    have hlist : createCalls L ((k, v) :: rest) w.nextEvent =
        [CudaCall.setDevice (deviceOf L k)] ++
          ((CudaCall.eventCreate w.nextEvent ::
              recordCalls L (deviceOf L k) w.nextEvent (lua_entries v)) ++
            createCalls L rest (w.nextEvent + 1)) := rfl
    have hloop : createMultiDeviceEvents.loop L state ((k, v) :: rest) events =
        (runCalls [CudaCall.setDevice (deviceOf L k)] >>= fun _ =>
          createSingleDeviceEvent L state v (deviceOf L k) >>= fun event =>
            createMultiDeviceEvents.loop L state rest (events ++ [event])) := by
      rw [runCalls_singleton]; rfl
    rw [hlist, hloop, runCalls_append, Cuda.bind_apply, Cuda.bind_apply]
    rcases hrun1 : runCalls [CudaCall.setDevice (deviceOf L k)] w with ⟨r, w2⟩
    cases r with
    | error e => rfl
    | ok a =>
      obtain ⟨b2, hb2⟩ := runCalls_ok_state hrun1
      have hn : w2.nextEvent = w.nextEvent := by
        rw [hb2, withBudget_nextEvent, applyAll_nextEvent]; rfl
      simp only
      rw [Cuda.bind_apply, createSingle_eq L state v _ _ hs, hn, runCalls_append, Cuda.bind_apply]
      rcases hrun : runCalls (CudaCall.eventCreate w.nextEvent ::
          recordCalls L (deviceOf L k) w.nextEvent (lua_entries v)) w2 with ⟨r3, w3⟩
      cases r3 with
      | error e => rfl
      | ok a3 =>
        obtain ⟨b3, hb3⟩ := runCalls_ok_state hrun
        have hn3 : w3.nextEvent = w.nextEvent + 1 := by
          rw [hb3, withBudget_nextEvent, applyAll_nextEvent, hn, List.countP_cons_of_pos,
            countP_isCreate_recordCalls]
          rfl
        simp only
        rw [ih _ w3 hrest, hn3]
        rcases runCalls (createCalls L rest (w.nextEvent + 1)) w3 with ⟨r4, w4⟩
        cases r4 with
        | error e => rfl
        | ok a4 =>
          simp only [List.length_cons, List.range'_succ, List.append_assoc, List.singleton_append]

/-! ## The entry points in closed form -/

theorem cudaGetDevice_eq (w : CudaRuntime) :
    cudaGetDevice w = match w.spend with
      | none => (.error .runtime, w)
      | some w1 => (.ok w.device, w1) := by
  unfold cudaGetDevice
  cases h : w.spend with
  | none => rfl
  | some w1 =>
    obtain ⟨b, hb⟩ := spend_eq_some h
    simp only [hb, withBudget_device]

theorem checknumber_eq (L : lua_State) (v : LuaValue) :
    luaL_checknumber L v =
      if lua_isnumber L v = true then .ok (lua_tonumber L v) else .error .validation := rfl

/-- The whole of `cutorch_streamWaitFor`. -/
theorem streamWaitFor_eq (L : lua_State) (state : THCState) (arg1 arg2 : LuaValue)
    (w : CudaRuntime) :
    cutorch_streamWaitFor L state arg1 arg2 w =
      entryPoint (ValidWaiter L state w.device arg1 ∧ ValidList L state w.device arg2)
        ((lua_entries arg2).length < 1)
        (streamWaitForCalls L w.device w.nextEvent arg1 (lua_entries arg2)) w := by
  unfold cutorch_streamWaitFor entryPoint
  rw [Cuda.bind_apply, cudaGetDevice_eq]
  cases hsp : w.spend with
  | none => rfl
  | some w1 =>
    obtain ⟨b, hb⟩ := spend_eq_some hsp
    simp only [checknumber_eq]
    by_cases hn : lua_isnumber L arg1 = true
    · simp only [hn, if_true, Cuda.check_ok_bind]
      by_cases hr : Resolves state w.device (streamIdOf L arg1)
      · have hr2 := getDeviceStream_of_resolves hr
        unfold streamIdOf at hr2
        simp only [hr2, Cuda.check_ok_bind, checkStreams_eq]
        by_cases hl : ValidList L state w.device arg2
        · have hl2 := hl
          unfold ValidList at hl2
          simp only [hl2, and_self, if_true, Cuda.check_ok_bind, ValidWaiter, hn, hr, hl]
          by_cases hlen : (lua_entries arg2).length < 1
          · have : ((lua_entries arg2).length : Int) < 1 := by omega
            simp only [this, hlen, if_true, Cuda.pure_apply]
          · have : ¬ ((lua_entries arg2).length : Int) < 1 := by omega
            simp only [this, hlen, if_false, Cuda.bind_apply]
            have hne : w1.nextEvent = w.nextEvent := by rw [hb]; rfl
            rw [createSingle_eq L state arg2 w.device w1 hl.2, hne, streamWaitForCalls,
              runCalls_append, Cuda.bind_apply]
            rcases runCalls (CudaCall.eventCreate w.nextEvent ::
              recordCalls L w.device w.nextEvent (lua_entries arg2)) w1 with ⟨r, w2⟩
            cases r with
            | error e => rfl
            | ok a =>
              simp only [runCalls_cons, runCalls_nil, cudaStreamWaitEvent, cudaEventDestroy,
                streamIdOf, Cuda.bind_apply, Cuda.pure_apply]
              rcases cudaIssue _ w2 with ⟨r3, w3⟩
              cases r3 with
              | error e => rfl
              | ok a3 =>
                simp only
                rcases cudaIssue _ w3 with ⟨r4, w4⟩
                cases r4 <;> rfl
        · have hl2 := hl
          unfold ValidList at hl2
          simp only [hl2, if_false, Cuda.check_error_bind, hl, and_false]
      · have hr2 := getDeviceStream_of_not_resolves hr
        unfold streamIdOf at hr2
        simp only [hr2, Cuda.check_error_bind, ValidWaiter, hr, and_false, false_and, if_false]
    · simp only [hn, if_false, Cuda.check_error_bind, ValidWaiter, false_and, Bool.false_eq_true]

theorem Cuda.bind_assoc {α β γ : Type} (m : Cuda α) (f : α → Cuda β) (g : β → Cuda γ) :
    (m >>= f >>= g) = (m >>= fun a => f a >>= g) := by
  funext w
  simp only [Cuda.bind_apply]
  rcases m w with ⟨r, w1⟩
  cases r <;> rfl

theorem Cuda.bind_pure_unit (m : Cuda Unit) : (m >>= fun _ => (pure () : Cuda Unit)) = m := by
  funext w
  simp only [Cuda.bind_apply, Cuda.pure_apply]
  rcases m w with ⟨r, w1⟩
  cases r <;> rfl

theorem waitAllEvents_of_length (stream : cudaStream_t) (events : List cudaEvent_t) (n : Nat)
    (h : events.length = n) :
    waitAllEvents stream events (List.range n) = runCalls (waitCalls stream events) := by
  subst h; exact waitAllEvents_range stream events

theorem destroyAllEvents_of_length (events : List cudaEvent_t) (n : Nat)
    (h : events.length = n) :
    destroyAllEvents events (List.range n) = runCalls (destroyCalls events) := by
  subst h; exact destroyAllEvents_range events

/-- The whole of `cutorch_streamBarrier`. -/
theorem streamBarrier_eq (L : lua_State) (state : THCState) (arg1 : LuaValue)
    (w : CudaRuntime) :
    cutorch_streamBarrier L state arg1 w =
      entryPoint (ValidList L state w.device arg1) ((lua_entries arg1).length < 2)
        (streamBarrierCalls L w.device w.nextEvent (lua_entries arg1)) w := by
  unfold cutorch_streamBarrier entryPoint
  rw [Cuda.bind_apply, cudaGetDevice_eq]
  cases hsp : w.spend with
  | none => rfl
  | some w1 =>
    obtain ⟨b, hb⟩ := spend_eq_some hsp
    simp only [checkStreams_eq]
    by_cases hl : ValidList L state w.device arg1
    · have hl2 := hl
      unfold ValidList at hl2
      simp only [hl2, and_self, if_true, Cuda.check_ok_bind, hl]
      by_cases hlen : (lua_entries arg1).length < 2
      · have : ((lua_entries arg1).length : Int) < 2 := by omega
        simp only [this, hlen, if_true, Cuda.pure_apply]
      · have : ¬ ((lua_entries arg1).length : Int) < 2 := by omega
        simp only [this, hlen, if_false, Cuda.bind_apply]
        have hne : w1.nextEvent = w.nextEvent := by rw [hb]; rfl
        rw [createSingle_eq L state arg1 w.device w1 hl.2, hne, streamBarrierCalls,
          runCalls_append, runCalls_append, Cuda.bind_assoc, Cuda.bind_apply]
        rcases runCalls (CudaCall.eventCreate w.nextEvent ::
          recordCalls L w.device w.nextEvent (lua_entries arg1)) w1 with ⟨r, w2⟩
        cases r with
        | error e => rfl
        | ok a =>
          simp only [waitSingleDeviceEvent, waitSingle_loop_eq L state w.device _ _ hl.2,
            runCalls_singleton, cudaEventDestroy, Cuda.bind_apply]
    · have hl2 := hl
      unfold ValidList at hl2
      simp only [hl2, if_false, Cuda.check_error_bind, hl]

/-- The whole of `cutorch_streamWaitForMultiDevice`. -/
theorem streamWaitForMultiDevice_eq (L : lua_State) (state : THCState)
    (arg1 arg2 arg3 : LuaValue) (w : CudaRuntime) :
    cutorch_streamWaitForMultiDevice L state arg1 arg2 arg3 w =
      entryPoint (ValidMultiWaiter L state arg1 arg2 ∧ ValidTable L state arg3)
        (totalStreams (lua_entries arg3) < 2)
        (streamWaitForMultiDeviceCalls L w.device w.nextEvent arg1 arg2 (lua_entries arg3)) w := by
  unfold cutorch_streamWaitForMultiDevice entryPoint
  rw [Cuda.bind_apply, cudaGetDevice_eq]
  cases hsp : w.spend with
  | none => rfl
  | some w1 =>
    obtain ⟨b, hb⟩ := spend_eq_some hsp
    simp only [checknumber_eq]
    by_cases hn1 : lua_isnumber L arg1 = true
    · simp only [hn1, if_true, Cuda.check_ok_bind]
      by_cases hn2 : lua_isnumber L arg2 = true
      · simp only [hn2, if_true, Cuda.check_ok_bind]
        by_cases hr : Resolves state (deviceOf L arg1) (streamIdOf L arg2)
        · have hr2 := getDeviceStream_of_resolves hr
          unfold streamIdOf deviceOf at hr2
          simp only [hr2, Cuda.check_ok_bind, checkPairs_eq]
          by_cases hl : ValidTable L state arg3
          · have hl2 := hl
            unfold ValidTable at hl2
            simp only [hl2, and_self, if_true, Cuda.check_ok_bind, ValidMultiWaiter, hn1, hn2,
              hr, hl]
            by_cases hlen : totalStreams (lua_entries arg3) < 2
            · have : (totalStreams (lua_entries arg3) : Int) < 2 := by omega
              simp only [this, hlen, if_true, Cuda.pure_apply]
            · have : ¬ (totalStreams (lua_entries arg3) : Int) < 2 := by omega
              simp only [this, hlen, if_false, Cuda.bind_apply, createMultiDeviceEvents]
              have hne : w1.nextEvent = w.nextEvent := by rw [hb]; rfl
              rw [createMulti_loop_eq L state _ [] w1 hl.2, hne, streamWaitForMultiDeviceCalls,
                List.append_assoc, List.append_assoc, runCalls_append, Cuda.bind_apply]
              rcases runCalls (createCalls L (lua_entries arg3) w.nextEvent) w1 with ⟨r, w2⟩
              cases r with
              | error e => rfl
              | ok a =>
                simp only [List.nil_append, Int.toNat_ofNat]
                rw [waitAllEvents_of_length _ _ _ (List.length_range' _ _ _),
                  destroyAllEvents_of_length _ _ (List.length_range' _ _ _)]
                simp only [List.cons_append, runCalls_cons, runCalls_append, runCalls_nil,
                  Cuda.bind_pure_unit, Cuda.bind_assoc, cudaSetDevice, deviceOf, streamIdOf,
                  Cuda.bind_apply]
          · have hl2 := hl
            unfold ValidTable at hl2
            simp only [hl2, if_false, Cuda.check_error_bind, hl, and_false]
        · have hr2 := getDeviceStream_of_not_resolves hr
          unfold streamIdOf deviceOf at hr2
          simp only [hr2, Cuda.check_error_bind, ValidMultiWaiter, hr, and_false, false_and,
            if_false]
      · simp only [hn2, if_false, Cuda.check_error_bind, ValidMultiWaiter, false_and, and_false,
          Bool.false_eq_true]
    · simp only [hn1, if_false, Cuda.check_error_bind, ValidMultiWaiter, false_and,
        Bool.false_eq_true]

/-- The whole of `cutorch_streamBarrierMultiDevice`. -/
theorem streamBarrierMultiDevice_eq (L : lua_State) (state : THCState)
    (arg1 : LuaValue) (w : CudaRuntime) :
    cutorch_streamBarrierMultiDevice L state arg1 w =
      entryPoint (ValidTable L state arg1) (totalStreams (lua_entries arg1) < 2)
        (streamBarrierMultiDeviceCalls L w.device w.nextEvent (lua_entries arg1)) w := by
  unfold cutorch_streamBarrierMultiDevice entryPoint
  rw [Cuda.bind_apply, cudaGetDevice_eq]
  cases hsp : w.spend with
  | none => rfl
  | some w1 =>
    obtain ⟨b, hb⟩ := spend_eq_some hsp
    simp only [checkPairs_eq]
    by_cases hl : ValidTable L state arg1
    · have hl2 := hl
      unfold ValidTable at hl2
      simp only [hl2, and_self, if_true, Cuda.check_ok_bind, hl]
      by_cases hlen : totalStreams (lua_entries arg1) < 2
      · have : (totalStreams (lua_entries arg1) : Int) < 2 := by omega
        simp only [this, hlen, if_true, Cuda.pure_apply]
      · have : ¬ (totalStreams (lua_entries arg1) : Int) < 2 := by omega
        simp only [this, hlen, if_false, Cuda.bind_apply, createMultiDeviceEvents]
        have hne : w1.nextEvent = w.nextEvent := by rw [hb]; rfl
        rw [createMulti_loop_eq L state _ [] w1 hl.2, hne, streamBarrierMultiDeviceCalls,
          List.append_assoc, List.append_assoc, runCalls_append, Cuda.bind_apply]
        rcases runCalls (createCalls L (lua_entries arg1) w.nextEvent) w1 with ⟨r, w2⟩
        cases r with
        | error e => rfl
        | ok a =>
          simp only [List.nil_append, waitMultiDeviceEvents]
          have hw := waitMulti_loop_eq L state
            (List.range' w.nextEvent (lua_entries arg1).length) (lua_entries arg1) hl.2
          rw [List.length_range'] at hw
          rw [hw, Int.toNat_ofNat, destroyAllEvents_of_length _ _ (List.length_range' _ _ _)]
          simp only [runCalls_append, runCalls_singleton, Cuda.bind_assoc, cudaSetDevice,
            Cuda.bind_apply]
    · have hl2 := hl
      unfold ValidTable at hl2
      simp only [hl2, if_false, Cuda.check_error_bind, hl]

/-! ## Outcomes of an entry point -/

theorem callsSince_applyAll (w : CudaRuntime) (cs : List CudaCall) (b : Option Nat) :
    callsSince w ((w.applyAll cs).withBudget b) = cs := by
  simp [callsSince, withBudget_calls, applyAll_calls]

theorem callsSince_withBudget (w : CudaRuntime) (b : Option Nat) :
    callsSince w (w.withBudget b) = [] := by
  simp [callsSince, withBudget_calls]

theorem spend_eq_none_iff (w : CudaRuntime) : w.spend = none ↔ w.budget = some 0 := by
  unfold CudaRuntime.spend
  split <;> simp_all

theorem entryPoint_of_spend_none {valid trivial : Prop} [Decidable valid] [Decidable trivial]
    {plan : List CudaCall} {w : CudaRuntime} (h : w.spend = none) :
    entryPoint valid trivial plan w = (.error .runtime, w) := by
  unfold entryPoint; rw [h]

theorem entryPoint_of_spend_some {valid trivial : Prop} [Decidable valid] [Decidable trivial]
    {plan : List CudaCall} {w w1 : CudaRuntime} (h : w.spend = some w1) :
    entryPoint valid trivial plan w =
      if valid then
        if trivial then (.ok (), w1) else runCalls plan w1
      else (.error .validation, w1) := by
  unfold entryPoint; rw [h]

/-- The five ways an entry point can end: `cudaGetDevice` fails; an argument
check fails; the input is trivial; all calls of the plan are made; the budget
runs out after `n` calls of the plan. -/
theorem entryPoint_cases (valid trivial : Prop) [Decidable valid] [Decidable trivial]
    (plan : List CudaCall) (w : CudaRuntime) :
    (w.budget = some 0 ∧ entryPoint valid trivial plan w = (.error .runtime, w)) ∨
    (∃ b, ¬ valid ∧ entryPoint valid trivial plan w = (.error .validation, w.withBudget b)) ∨
    (∃ b, valid ∧ trivial ∧ entryPoint valid trivial plan w = (.ok (), w.withBudget b)) ∨
    (∃ b, valid ∧ ¬ trivial ∧
      entryPoint valid trivial plan w = (.ok (), (w.applyAll plan).withBudget b)) ∨
    (∃ n, valid ∧ ¬ trivial ∧ n < plan.length ∧ w.budget = some (n + 1) ∧
      entryPoint valid trivial plan w =
        (.error .runtime, (w.applyAll (plan.take n)).withBudget (some 0))) := by
  cases hsp : w.spend with
  | none => exact Or.inl ⟨(spend_eq_none_iff w).1 hsp, entryPoint_of_spend_none hsp⟩
  | some w1 =>
    right
    rw [entryPoint_of_spend_some hsp]
    by_cases hv : valid
    · by_cases ht : trivial
      · obtain ⟨b, hb⟩ := spend_eq_some hsp
        exact Or.inr (Or.inl ⟨b, hv, ht, by rw [if_pos hv, if_pos ht, hb]⟩)
      · rw [if_pos hv, if_neg ht]
        right; right
        cases hbud : w.budget with
        | none =>
          have h1 : w1 = w := by
            rw [spend_none w hbud] at hsp; exact (Option.some.inj hsp).symm
          left
          refine ⟨none, hv, ht, ?_⟩
          rw [h1, runCalls_ok_of_unbounded plan w hbud]
          have hbp := applyAll_budget w plan
          rw [hbud] at hbp
          have hself := withBudget_self (w.applyAll plan)
          rw [hbp] at hself
          rw [hself]
        | some k =>
          cases k with
          | zero => rw [spend_zero w hbud] at hsp; exact absurd hsp (by simp)
          | succ k =>
            have h1 : w1 = w.withBudget (some k) := by
              rw [spend_succ w k hbud] at hsp; exact (Option.some.inj hsp).symm
            rw [h1, runCalls_eq]
            simp only [withBudget_budget, withBudget_applyAll, withBudget_withBudget]
            by_cases hle : plan.length ≤ k
            · left
              exact ⟨_, hv, ht, by rw [if_pos hle]⟩
            · right
              exact ⟨k, hv, ht, by omega, rfl, by rw [if_neg hle]⟩
    · obtain ⟨b, hb⟩ := spend_eq_some hsp
      exact Or.inl ⟨b, hv, by rw [if_neg hv, hb]⟩

/-- With an unbounded budget a valid call returns successfully and makes
exactly the calls of the plan (none on a trivial input). -/
theorem entryPoint_unbounded (valid trivial : Prop) [Decidable valid] [Decidable trivial]
    (plan : List CudaCall) (w : CudaRuntime) (hb : w.budget = none) (hv : valid) :
    entryPoint valid trivial plan w =
      (.ok (), if trivial then w else w.applyAll plan) := by
  unfold entryPoint
  rw [spend_none w hb]
  by_cases ht : trivial
  · simp [hv, ht]
  · simp [hv, ht, runCalls_eq, hb]

/-- A call that returns successfully passed the argument checks and made
exactly the calls of the plan (none on a trivial input). -/
theorem entryPoint_ok {valid trivial : Prop} [Decidable valid] [Decidable trivial]
    {plan : List CudaCall} {w : CudaRuntime}
    (h : (entryPoint valid trivial plan w).1 = .ok ()) :
    valid ∧ ∃ b, entryPoint valid trivial plan w =
      (.ok (), ((if trivial then w else w.applyAll plan)).withBudget b) := by
  rcases entryPoint_cases valid trivial plan w with ⟨_, h1⟩ | ⟨b, _, h1⟩ | ⟨b, hv, ht, h1⟩ |
    ⟨b, hv, ht, h1⟩ | ⟨n, _, _, _, _, h1⟩
  · rw [h1] at h; simp at h
  · rw [h1] at h; simp at h
  · exact ⟨hv, b, by rw [h1, if_pos ht]⟩
  · exact ⟨hv, b, by rw [h1, if_neg ht]⟩
  · rw [h1] at h; simp at h

/-- A call that fails an argument check, or whose arguments are invalid, has
made no runtime call that changes state. -/
theorem entryPoint_invalid {valid trivial : Prop} [Decidable valid] [Decidable trivial]
    {plan : List CudaCall} {w : CudaRuntime} (hv : ¬ valid) :
    (entryPoint valid trivial plan w).1 =
        .error (if w.budget = some 0 then .runtime else .validation) ∧
      (entryPoint valid trivial plan w).2.calls = w.calls ∧
      (entryPoint valid trivial plan w).2.device = w.device := by
  rcases entryPoint_cases valid trivial plan w with ⟨h0, h1⟩ | ⟨b, _, h1⟩ | ⟨b, hv2, _, _⟩ |
    ⟨b, hv2, _, _⟩ | ⟨n, hv2, _, _, _, _⟩
  · rw [h1]; simp [h0]
  · have hne : w.budget ≠ some 0 := by
      intro h0
      have hsp := spend_zero w h0
      unfold entryPoint at h1
      rw [hsp] at h1
      simp at h1
    rw [h1]; simp [hne, withBudget_calls, withBudget_device]
  · exact absurd hv2 hv
  · exact absurd hv2 hv
  · exact absurd hv2 hv

/-! ## Counting and filtering the calls of a plan -/

theorem filter_recordCalls_of_not (p : CudaCall → Bool) (L : lua_State) (device : Int)
    (event : cudaEvent_t) (entries : List (LuaValue × LuaValue))
    (hp : ∀ e s, p (.eventRecord e s) = false) :
    (recordCalls L device event entries).filter p = [] := by
  rw [List.filter_eq_nil_iff]
  intro c hc
  simp only [recordCalls, List.mem_map] at hc
  obtain ⟨kv, _, rfl⟩ := hc
  simp [hp]

theorem filter_waitCalls_of_not (p : CudaCall → Bool) (stream : cudaStream_t)
    (events : List cudaEvent_t) (hp : ∀ s e, p (.streamWaitEvent s e) = false) :
    (waitCalls stream events).filter p = [] := by
  rw [List.filter_eq_nil_iff]
  intro c hc
  simp only [waitCalls, List.mem_map] at hc
  obtain ⟨e, _, rfl⟩ := hc
  simp [hp]

theorem filter_destroyCalls_of_not (p : CudaCall → Bool) (events : List cudaEvent_t)
    (hp : ∀ e, p (.eventDestroy e) = false) :
    (destroyCalls events).filter p = [] := by
  rw [List.filter_eq_nil_iff]
  intro c hc
  simp only [destroyCalls, List.mem_map] at hc
  obtain ⟨e, _, rfl⟩ := hc
  simp [hp]

theorem filter_groupWaitCalls_of_not (p : CudaCall → Bool) (L : lua_State)
    (events : List cudaEvent_t) (groups : List (LuaValue × LuaValue))
    (hw : ∀ s e, p (.streamWaitEvent s e) = false) (hs : ∀ d, p (.setDevice d) = false) :
    (groups.flatMap (groupWaitCalls L events)).filter p = [] := by
  simp only [List.filter_eq_nil_iff, List.mem_flatMap, groupWaitCalls, List.mem_cons, waitCalls,
    List.mem_map]
  rintro c ⟨kv, _, h | ⟨s, _, e, _, h⟩⟩
  · rw [h, hs]; simp
  · rw [← h, hw]; simp

theorem filter_isCreate_createCalls (L : lua_State) (groups : List (LuaValue × LuaValue))
    (first : cudaEvent_t) :
    (createCalls L groups first).filter CudaCall.isCreate =
      (List.range' first groups.length).map CudaCall.eventCreate := by
  induction groups generalizing first with
  | nil => rfl
  | cons kv rest ih =>
    simp only [createCalls, groupCreateCalls, List.cons_append, List.filter_cons,
      CudaCall.isCreate, List.filter_append, ih, List.length_cons, List.range'_succ,
      List.map_cons, Bool.false_eq_true, if_false, if_true]
    rw [filter_recordCalls_of_not CudaCall.isCreate _ _ _ _ (fun _ _ => rfl)]
    rfl

theorem countP_isCreate_waitForMulti (L : lua_State) (prevDev : Int) (first : cudaEvent_t)
    (gpuWaiter streamWaiter : LuaValue) (groups : List (LuaValue × LuaValue)) :
    (streamWaitForMultiDeviceCalls L prevDev first gpuWaiter streamWaiter groups).countP
      CudaCall.isCreate = groups.length := by
  rw [List.countP_eq_length_filter]
  simp only [streamWaitForMultiDeviceCalls, List.filter_append, List.filter_cons,
    filter_isCreate_createCalls, CudaCall.isCreate,
    filter_waitCalls_of_not CudaCall.isCreate _ _ (fun _ _ => rfl),
    filter_destroyCalls_of_not CudaCall.isCreate _ (fun _ => rfl), Bool.false_eq_true, if_false]
  simp

theorem countP_isCreate_barrierMulti (L : lua_State) (prevDev : Int) (first : cudaEvent_t)
    (groups : List (LuaValue × LuaValue)) :
    (streamBarrierMultiDeviceCalls L prevDev first groups).countP CudaCall.isCreate =
      groups.length := by
  rw [List.countP_eq_length_filter]
  simp only [streamBarrierMultiDeviceCalls, List.filter_append, List.filter_cons,
    filter_isCreate_createCalls, CudaCall.isCreate,
    filter_groupWaitCalls_of_not CudaCall.isCreate _ _ _ (fun _ _ => rfl) (fun _ => rfl),
    filter_destroyCalls_of_not CudaCall.isCreate _ (fun _ => rfl), Bool.false_eq_true, if_false]
  simp

theorem checkPairs_ok {L : lua_State} {state : THCState} {arg : LuaValue} {gpus streams : Int}
    (h : checkAndCountListOfGPUStreamPairs L state arg = .ok (gpus, streams)) :
    ValidTable L state arg ∧ gpus = (lua_entries arg).length ∧
      streams = totalStreams (lua_entries arg) := by
  rw [checkPairs_eq] at h
  by_cases hv : lua_istable arg = true ∧ ValidGroups L state (lua_entries arg)
  · rw [if_pos hv] at h
    simp only [Except.ok.injEq, Prod.mk.injEq] at h
    exact ⟨hv, h.1.symm, h.2.symm⟩
  · rw [if_neg hv] at h
    simp at h

/-! ## C1: events created by the multi-device operations -/

/-- C1, counterexample: the table `{[1] = {1}, [1.5] = {2}}` has two distinct
keys, passes validation on a one-device machine with two reserved streams and
lists two queues; both keys denote device 0, so one distinct device takes part,
yet `streamBarrierMultiDevice` and `streamWaitForMultiDevice` each create two
events. -/
theorem distinct_devices_event_count_counterexample :
    (1 : ℚ) ≠ mkRat 3 2 ∧
    checkAndCountListOfGPUStreamPairs noCoercion ⟨1, 2⟩ twoKeysOneDevice = .ok (2, 2) ∧
    (devicesOf noCoercion (lua_entries twoKeysOneDevice)).dedup.length = 1 ∧
    (cutorch_streamBarrierMultiDevice noCoercion ⟨1, 2⟩ twoKeysOneDevice (idle 0)).1 = .ok () ∧
    (callsSince (idle 0) (cutorch_streamBarrierMultiDevice noCoercion ⟨1, 2⟩ twoKeysOneDevice
      (idle 0)).2).countP CudaCall.isCreate = 2 ∧
    (cutorch_streamWaitForMultiDevice noCoercion ⟨1, 2⟩ (.number 1) (.number 0)
      twoKeysOneDevice (idle 0)).1 = .ok () ∧
    (callsSince (idle 0) (cutorch_streamWaitForMultiDevice noCoercion ⟨1, 2⟩ (.number 1)
      (.number 0) twoKeysOneDevice (idle 0)).2).countP CudaCall.isCreate = 2 := by
  refine ⟨by decide, by decide, by decide, by decide, by decide, by decide, by decide⟩

theorem toCInt_of_den_one (x : ℚ) (h : x.den = 1) : toCInt x = x.num := by
  unfold toCInt
  rw [h]
  exact Int.tdiv_one _

theorem deviceOf_of_isIntegerNumber {L : lua_State} {k : LuaValue}
    (h : isIntegerNumber k = true) : ∃ x : ℚ, k = .number x ∧ x.den = 1 ∧
      deviceOf L k = x.num - 1 := by
  cases k with
  | number x =>
    have hd : x.den = 1 := by simpa [isIntegerNumber] using h
    exact ⟨x, rfl, hd, by simp [deviceOf, lua_tonumber, toCInt_of_den_one x hd]⟩
  | nil => simp [isIntegerNumber] at h
  | boolean b => simp [isIntegerNumber] at h
  | string s => simp [isIntegerNumber] at h
  | table es => simp [isIntegerNumber] at h
  | other => simp [isIntegerNumber] at h

/-- Pairwise distinct keys that are numbers with integer values denote
pairwise distinct devices. -/
theorem devicesOf_nodup_of_integer_keys (L : lua_State) (groups : List (LuaValue × LuaValue))
    (hint : ∀ kv ∈ groups, isIntegerNumber kv.1 = true)
    (hkeys : (groups.map Prod.fst).Nodup) : (devicesOf L groups).Nodup := by
  have hmap : devicesOf L groups = (groups.map Prod.fst).map (deviceOf L) := by
    simp [devicesOf, List.map_map, Function.comp_def]
  rw [hmap]
  refine List.Nodup.map_on ?_ hkeys
  intro k1 h1 k2 h2 heq
  obtain ⟨kv1, hkv1, rfl⟩ := List.mem_map.1 h1
  obtain ⟨kv2, hkv2, rfl⟩ := List.mem_map.1 h2
  obtain ⟨x, hx, hxd, hxdev⟩ := @deviceOf_of_isIntegerNumber L kv1.1 (hint kv1 hkv1)
  obtain ⟨y, hy, hyd, hydev⟩ := @deviceOf_of_isIntegerNumber L kv2.1 (hint kv2 hkv2)
  rw [hxdev, hydev] at heq
  have hnum : x.num = y.num := by omega
  have hxy : x = y := Rat.ext hnum (by rw [hxd, hyd])
  rw [hx, hy, hxy]

/-- C1, amended: on a group table that passes validation and lists at least 2
queues, `streamWaitForMultiDevice` and `streamBarrierMultiDevice` each create
exactly one event per group (per key of the table), however many queues each
group lists; with an unfailing runtime (and, for the wait, a valid waiter) the
calls do return. The groups are as many as the distinct zero-based devices
whenever no two keys denote the same device; that is so, and the events
created are then as many as the distinct devices, when every key (the keys of
a table being pairwise distinct) is a number with an integer value. -/
theorem multiDevice_creates_one_event_per_group (L : lua_State) (state : THCState)
    (gpuWaiter streamWaiter table : LuaValue) (gpus streams : Int) (w : CudaRuntime)
    (hvalid : checkAndCountListOfGPUStreamPairs L state table = .ok (gpus, streams))
    (hstreams : 2 ≤ streams) :
    ((cutorch_streamWaitForMultiDevice L state gpuWaiter streamWaiter table w).1 = .ok () →
      (callsSince w (cutorch_streamWaitForMultiDevice L state gpuWaiter streamWaiter table
        w).2).countP CudaCall.isCreate = (lua_entries table).length) ∧
    ((cutorch_streamBarrierMultiDevice L state table w).1 = .ok () →
      (callsSince w (cutorch_streamBarrierMultiDevice L state table w).2).countP
        CudaCall.isCreate = (lua_entries table).length) ∧
    (w.budget = none → ValidMultiWaiter L state gpuWaiter streamWaiter →
      (cutorch_streamWaitForMultiDevice L state gpuWaiter streamWaiter table w).1 = .ok ()) ∧
    (w.budget = none → (cutorch_streamBarrierMultiDevice L state table w).1 = .ok ()) ∧
    ((devicesOf L (lua_entries table)).Nodup →
      (devicesOf L (lua_entries table)).dedup.length = (lua_entries table).length) ∧
    ((∀ kv ∈ lua_entries table, isIntegerNumber kv.1 = true) →
      ((lua_entries table).map Prod.fst).Nodup →
      ((cutorch_streamWaitForMultiDevice L state gpuWaiter streamWaiter table w).1 = .ok () →
        (callsSince w (cutorch_streamWaitForMultiDevice L state gpuWaiter streamWaiter table
          w).2).countP CudaCall.isCreate = (devicesOf L (lua_entries table)).dedup.length) ∧
      ((cutorch_streamBarrierMultiDevice L state table w).1 = .ok () →
        (callsSince w (cutorch_streamBarrierMultiDevice L state table w).2).countP
          CudaCall.isCreate = (devicesOf L (lua_entries table)).dedup.length)) := by
  obtain ⟨hv, _, hs⟩ := checkPairs_ok hvalid
  have hnt : ¬ totalStreams (lua_entries table) < 2 := by omega
  have hwait : (cutorch_streamWaitForMultiDevice L state gpuWaiter streamWaiter table w).1 =
      .ok () →
      (callsSince w (cutorch_streamWaitForMultiDevice L state gpuWaiter streamWaiter table
        w).2).countP CudaCall.isCreate = (lua_entries table).length := by
    rw [streamWaitForMultiDevice_eq]
    intro hok
    obtain ⟨_, b, heq⟩ := entryPoint_ok hok
    rw [heq, if_neg hnt, callsSince_applyAll, countP_isCreate_waitForMulti]
  have hbar : (cutorch_streamBarrierMultiDevice L state table w).1 = .ok () →
      (callsSince w (cutorch_streamBarrierMultiDevice L state table w).2).countP
        CudaCall.isCreate = (lua_entries table).length := by
    rw [streamBarrierMultiDevice_eq]
    intro hok
    obtain ⟨_, b, heq⟩ := entryPoint_ok hok
    rw [heq, if_neg hnt, callsSince_applyAll, countP_isCreate_barrierMulti]
  refine ⟨hwait, hbar, ?_, ?_, ?_, ?_⟩
  · intro hb hw
    rw [streamWaitForMultiDevice_eq, entryPoint_unbounded _ _ _ _ hb ⟨hw, hv⟩]
  · intro hb
    rw [streamBarrierMultiDevice_eq, entryPoint_unbounded _ _ _ _ hb hv]
  · intro hnd
    rw [hnd.dedup, devicesOf, List.length_map]
  · intro hint hkeys
    have hnd := devicesOf_nodup_of_integer_keys L (lua_entries table) hint hkeys
    have hlen : (devicesOf L (lua_entries table)).dedup.length = (lua_entries table).length := by
      rw [hnd.dedup, devicesOf, List.length_map]
    exact ⟨fun hok => by rw [hlen]; exact hwait hok, fun hok => by rw [hlen]; exact hbar hok⟩

/-- C1, witness: the table `{[2] = {1, 2}, [3] = {1}}` on a three-device
machine with two reserved streams. -/
theorem multiDevice_creates_one_event_per_group_witness :
    checkAndCountListOfGPUStreamPairs noCoercion ⟨3, 2⟩ twoDevicesThreeStreams = .ok (2, 3) ∧
    (callsSince (idle 0) (cutorch_streamBarrierMultiDevice noCoercion ⟨3, 2⟩
      twoDevicesThreeStreams (idle 0)).2).countP CudaCall.isCreate = 2 ∧
    (callsSince (idle 0) (cutorch_streamBarrierMultiDevice noCoercion ⟨3, 2⟩
      twoDevicesThreeStreams (idle 0)).2).countP CudaCall.isCreate =
      (devicesOf noCoercion (lua_entries twoDevicesThreeStreams)).dedup.length :=
  ⟨by decide,
    (multiDevice_creates_one_event_per_group noCoercion ⟨3, 2⟩ (.number 1) (.number 0)
      twoDevicesThreeStreams 2 3 (idle 0) (by decide) (by decide)).2.1 (by decide),
    ((multiDevice_creates_one_event_per_group noCoercion ⟨3, 2⟩ (.number 1) (.number 0)
      twoDevicesThreeStreams 2 3 (idle 0) (by decide) (by decide)).2.2.2.2.2 (by decide)
      (by simp [twoDevicesThreeStreams, lua_entries])).2 (by decide)⟩

/-! ## C2: the current device after a call -/

theorem applyAll_device_setDevice_last (w : CudaRuntime) (cs : List CudaCall) (d : Int) :
    (w.applyAll (cs ++ [.setDevice d])).device = d := by
  rw [applyAll_append, applyAll_cons, applyAll_nil]; rfl

theorem applyAll_device_of_no_setDevice (w : CudaRuntime) (cs : List CudaCall)
    (h : ∀ c ∈ cs, CudaCall.isSetDevice c = false) : (w.applyAll cs).device = w.device := by
  induction cs generalizing w with
  | nil => rfl
  | cons c cs ih =>
    rw [applyAll_cons, ih _ (fun x hx => h x (List.mem_cons_of_mem _ hx))]
    have hc := h c (List.mem_cons_self _ _)
    cases c <;> simp_all [CudaRuntime.apply, CudaCall.isSetDevice]

theorem streamWaitForCalls_no_setDevice (L : lua_State) (device : Int) (event : cudaEvent_t)
    (waiter : LuaValue) (entries : List (LuaValue × LuaValue)) :
    ∀ c ∈ streamWaitForCalls L device event waiter entries, CudaCall.isSetDevice c = false := by
  intro c hc
  simp only [streamWaitForCalls, recordCalls, List.mem_append, List.mem_cons, List.mem_map,
    List.mem_singleton, List.not_mem_nil, or_false] at hc
  rcases hc with (rfl | ⟨kv, _, rfl⟩) | rfl | rfl <;> rfl

theorem streamBarrierCalls_no_setDevice (L : lua_State) (device : Int) (event : cudaEvent_t)
    (entries : List (LuaValue × LuaValue)) :
    ∀ c ∈ streamBarrierCalls L device event entries, CudaCall.isSetDevice c = false := by
  intro c hc
  simp only [streamBarrierCalls, recordCalls, List.mem_append, List.mem_cons, List.mem_map,
    List.mem_singleton, List.not_mem_nil, or_false] at hc
  rcases hc with ((rfl | ⟨kv, _, rfl⟩) | ⟨kv, _, rfl⟩) | rfl <;> rfl

/-- An entry point whose plan, run to its end, leaves the device where it was
leaves it there whenever it returns successfully or fails an argument check. -/
theorem entryPoint_device {valid trivial : Prop} [Decidable valid] [Decidable trivial]
    {plan : List CudaCall} {w : CudaRuntime} (hplan : (w.applyAll plan).device = w.device)
    (h : (entryPoint valid trivial plan w).1 = .ok () ∨
      (entryPoint valid trivial plan w).1 = .error .validation) :
    (entryPoint valid trivial plan w).2.device = w.device := by
  rcases entryPoint_cases valid trivial plan w with ⟨_, h1⟩ | ⟨b, _, h1⟩ | ⟨b, _, _, h1⟩ |
    ⟨b, _, _, h1⟩ | ⟨n, _, _, _, _, h1⟩
  · rw [h1] at h; simp at h
  · rw [h1]; rfl
  · rw [h1]; rfl
  · rw [h1]; exact hplan
  · rw [h1] at h; simp at h

/-- C2: for each of the four coordination operations and every starting
runtime state, if the call returns successfully (the trivial no-op return
included) or fails in validation, the current device after the call is the
device that was current before it. -/
theorem coordination_call_keeps_current_device (L : lua_State) (state : THCState)
    (arg1 arg2 arg3 : LuaValue) (w : CudaRuntime) :
    (((cutorch_streamWaitFor L state arg1 arg2 w).1 = .ok () ∨
        (cutorch_streamWaitFor L state arg1 arg2 w).1 = .error .validation) →
      (cutorch_streamWaitFor L state arg1 arg2 w).2.device = w.device) ∧
    (((cutorch_streamWaitForMultiDevice L state arg1 arg2 arg3 w).1 = .ok () ∨
        (cutorch_streamWaitForMultiDevice L state arg1 arg2 arg3 w).1 = .error .validation) →
      (cutorch_streamWaitForMultiDevice L state arg1 arg2 arg3 w).2.device = w.device) ∧
    (((cutorch_streamBarrier L state arg1 w).1 = .ok () ∨
        (cutorch_streamBarrier L state arg1 w).1 = .error .validation) →
      (cutorch_streamBarrier L state arg1 w).2.device = w.device) ∧
    (((cutorch_streamBarrierMultiDevice L state arg1 w).1 = .ok () ∨
        (cutorch_streamBarrierMultiDevice L state arg1 w).1 = .error .validation) →
      (cutorch_streamBarrierMultiDevice L state arg1 w).2.device = w.device) := by
  refine ⟨?_, ?_, ?_, ?_⟩
  · rw [streamWaitFor_eq]
    exact entryPoint_device
      (applyAll_device_of_no_setDevice _ _ (streamWaitForCalls_no_setDevice _ _ _ _ _))
  · rw [streamWaitForMultiDevice_eq]
    exact entryPoint_device (applyAll_device_setDevice_last _ _ _)
  · rw [streamBarrier_eq]
    exact entryPoint_device
      (applyAll_device_of_no_setDevice _ _ (streamBarrierCalls_no_setDevice _ _ _ _))
  · rw [streamBarrierMultiDevice_eq]
    exact entryPoint_device (applyAll_device_setDevice_last _ _ _)

/-- C2, witness: `streamWaitForMultiDevice(1, 0, {[2] = {1, 2}, [3] = {1}})`
called with device 0 current returns with device 0 current. -/
theorem coordination_call_keeps_current_device_witness :
    (cutorch_streamWaitForMultiDevice noCoercion ⟨3, 2⟩ (.number 1) (.number 0)
      twoDevicesThreeStreams (idle 0)).1 = .ok () ∧
    (cutorch_streamWaitForMultiDevice noCoercion ⟨3, 2⟩ (.number 1) (.number 0)
      twoDevicesThreeStreams (idle 0)).2.device = 0 :=
  ⟨by decide,
    (coordination_call_keeps_current_device noCoercion ⟨3, 2⟩ (.number 1) (.number 0)
      twoDevicesThreeStreams (idle 0)).2.1 (Or.inl (by decide))⟩

/-! ## C3: unresolved ids -/

theorem not_validStreams_of_bad {L : lua_State} {state : THCState} {device : Int}
    {entries : List (LuaValue × LuaValue)} (h : HasBadStream L state device entries) :
    ¬ ValidStreams L state device entries := by
  obtain ⟨kv, hmem, hbad⟩ := h
  exact fun hv => hbad (hv kv hmem).2

theorem not_validGroups_of_bad {L : lua_State} {state : THCState}
    {groups : List (LuaValue × LuaValue)} (h : HasBadGroup L state groups) :
    ¬ ValidGroups L state groups := by
  obtain ⟨kv, hmem, hbad⟩ := h
  intro hv
  rcases hbad with hd | hs
  · exact hd (hv kv hmem).2.2.1
  · exact not_validStreams_of_bad hs (hv kv hmem).2.2.2

theorem entryPoint_rejected {valid trivial : Prop} [Decidable valid] [Decidable trivial]
    {plan : List CudaCall} {w : CudaRuntime} (hv : ¬ valid) :
    Rejected w (entryPoint valid trivial plan w) := by
  obtain ⟨h1, h2, h3⟩ := @entryPoint_invalid valid trivial _ _ plan w hv
  refine ⟨fun hb => ?_, ?_, ?_, h3⟩
  · rw [h1, if_neg hb]
  · rw [h1]; simp
  · simp [callsSince, h2]

/-- C3: for each of the four coordination operations, if the waiter queue, a
listed queue index or a group's device key does not resolve, wherever in the
input it occurs, the call is rejected: it fails with a validation error and has
made no event call (create, record, wait, destroy) and no device switch. -/
theorem unresolved_id_is_rejected_without_effect (L : lua_State) (state : THCState)
    (arg1 arg2 arg3 : LuaValue) (w : CudaRuntime) :
    ((¬ Resolves state w.device (streamIdOf L arg1) ∨
        HasBadStream L state w.device (lua_entries arg2)) →
      Rejected w (cutorch_streamWaitFor L state arg1 arg2 w)) ∧
    ((¬ Resolves state (deviceOf L arg1) (streamIdOf L arg2) ∨
        HasBadGroup L state (lua_entries arg3)) →
      Rejected w (cutorch_streamWaitForMultiDevice L state arg1 arg2 arg3 w)) ∧
    (HasBadStream L state w.device (lua_entries arg1) →
      Rejected w (cutorch_streamBarrier L state arg1 w)) ∧
    (HasBadGroup L state (lua_entries arg1) →
      Rejected w (cutorch_streamBarrierMultiDevice L state arg1 w)) := by
  refine ⟨?_, ?_, ?_, ?_⟩
  · intro h
    rw [streamWaitFor_eq]
    apply entryPoint_rejected
    rintro ⟨hw, hl⟩
    rcases h with h | h
    · exact h hw.2
    · exact not_validStreams_of_bad h hl.2
  · intro h
    rw [streamWaitForMultiDevice_eq]
    apply entryPoint_rejected
    rintro ⟨hw, hl⟩
    rcases h with h | h
    · exact h hw.2.2
    · exact not_validGroups_of_bad h hl.2
  · intro h
    rw [streamBarrier_eq]
    apply entryPoint_rejected
    exact fun hl => not_validStreams_of_bad h hl.2
  · intro h
    rw [streamBarrierMultiDevice_eq]
    apply entryPoint_rejected
    exact fun hl => not_validGroups_of_bad h hl.2

/-- C3, witness: with two reserved streams, `streamBarrier({1, 5})` names the
unreserved index 5 and is rejected. -/
theorem unresolved_id_is_rejected_without_effect_witness :
    HasBadStream noCoercion ⟨1, 2⟩ 0 (lua_entries (luaList [1, 5])) ∧
    cutorch_streamBarrier noCoercion ⟨1, 2⟩ (luaList [1, 5]) (idle 0) =
      (.error .validation, idle 0) ∧
    Rejected (idle 0) (cutorch_streamBarrier noCoercion ⟨1, 2⟩ (luaList [1, 5]) (idle 0)) :=
  ⟨by decide, by decide,
    (unresolved_id_is_rejected_without_effect noCoercion ⟨1, 2⟩ (luaList [1, 5]) .nil .nil
      (idle 0)).2.2.1 (by decide)⟩

/-! ## C4 and C7: the single-device operations -/

theorem filter_isWait_streamWaitForCalls (L : lua_State) (device : Int) (event : cudaEvent_t)
    (waiter : LuaValue) (entries : List (LuaValue × LuaValue)) :
    (streamWaitForCalls L device event waiter entries).filter CudaCall.isWait =
      [.streamWaitEvent ⟨device, streamIdOf L waiter⟩ event] := by
  unfold streamWaitForCalls
  rw [List.filter_append, List.filter_cons_of_neg (by simp [CudaCall.isWait]),
    filter_recordCalls_of_not CudaCall.isWait _ _ _ _ (fun _ _ => rfl)]
  rfl

/-- C4, counterexample: on device 0 with two reserved streams,
`streamWaitFor(1, {1, 2})` has a valid waiter and two valid source queues and
returns; queue 1 is a listed source queue and it receives the wait, the code
never comparing the waiter with the listed sources. -/
theorem streamWaitFor_listed_waiter_counterexample :
    ValidWaiter noCoercion ⟨1, 2⟩ 0 (.number 1) ∧
    ValidList noCoercion ⟨1, 2⟩ 0 (luaList [1, 2]) ∧
    cutorch_streamWaitFor noCoercion ⟨1, 2⟩ (.number 1) (luaList [1, 2]) (idle 0) =
      (.ok (), ⟨0, [.eventCreate 0, .eventRecord 0 ⟨0, 1⟩, .eventRecord 0 ⟨0, 2⟩,
        .streamWaitEvent ⟨0, 1⟩ 0, .eventDestroy 0], 1, none⟩) ∧
    (⟨0, 1⟩ : cudaStream_t) ∈ (lua_entries (luaList [1, 2])).map
      (fun kv => (⟨0, streamIdOf noCoercion kv.2⟩ : cudaStream_t)) ∧
    CudaCall.streamWaitEvent ⟨0, 1⟩ 0 ∈ callsSince (idle 0)
      (cutorch_streamWaitFor noCoercion ⟨1, 2⟩ (.number 1) (luaList [1, 2]) (idle 0)).2 := by
  refine ⟨by decide, by decide, by decide, by decide, by decide⟩

/-- C4, amended: for a valid waiter queue W and a list of n ≥ 1 valid source
queues of the current device, `streamWaitFor` returns (given an unfailing
runtime), and a call that returns has made exactly these calls, in this order:
one event created; that event recorded once on each listed source queue, in
list order; one wait, of the waiter on that event; the event destroyed. The
waits are that single one, on W, so a listed source queue receives a wait
exactly when it is W itself. -/
theorem streamWaitFor_one_event_one_wait (L : lua_State) (state : THCState)
    (waiter sources : LuaValue) (w : CudaRuntime)
    (hw : ValidWaiter L state w.device waiter) (hs : ValidList L state w.device sources)
    (hn : 1 ≤ (lua_entries sources).length) :
    (w.budget = none → (cutorch_streamWaitFor L state waiter sources w).1 = .ok ()) ∧
    ((cutorch_streamWaitFor L state waiter sources w).1 = .ok () →
      callsSince w (cutorch_streamWaitFor L state waiter sources w).2 =
        .eventCreate w.nextEvent ::
          ((lua_entries sources).map fun kv =>
            .eventRecord w.nextEvent ⟨w.device, streamIdOf L kv.2⟩) ++
          [.streamWaitEvent ⟨w.device, streamIdOf L waiter⟩ w.nextEvent,
            .eventDestroy w.nextEvent] ∧
      (callsSince w (cutorch_streamWaitFor L state waiter sources w).2).filter
          CudaCall.isWait =
        [.streamWaitEvent ⟨w.device, streamIdOf L waiter⟩ w.nextEvent] ∧
      ∀ kv ∈ lua_entries sources,
        ((∃ e, CudaCall.streamWaitEvent ⟨w.device, streamIdOf L kv.2⟩ e ∈
            callsSince w (cutorch_streamWaitFor L state waiter sources w).2) ↔
          streamIdOf L kv.2 = streamIdOf L waiter)) := by
  have hnt : ¬ (lua_entries sources).length < 1 := by omega
  rw [streamWaitFor_eq]
  refine ⟨fun hb => ?_, fun hok => ?_⟩
  · rw [entryPoint_unbounded _ _ _ _ hb ⟨hw, hs⟩]
  · obtain ⟨_, b, heq⟩ := entryPoint_ok hok
    rw [heq, if_neg hnt, callsSince_applyAll]
    have hf := filter_isWait_streamWaitForCalls L w.device w.nextEvent waiter
      (lua_entries sources)
    refine ⟨rfl, hf, fun kv _ => ⟨?_, ?_⟩⟩
    · rintro ⟨e, he⟩
      have hmem : CudaCall.streamWaitEvent ⟨w.device, streamIdOf L kv.2⟩ e ∈
          (streamWaitForCalls L w.device w.nextEvent waiter (lua_entries sources)).filter
            CudaCall.isWait := List.mem_filter.2 ⟨he, rfl⟩
      rw [hf, List.mem_singleton] at hmem
      injection hmem with h1 _
      injection h1
    · intro heq2
      refine ⟨w.nextEvent, ?_⟩
      have hmem : CudaCall.streamWaitEvent ⟨w.device, streamIdOf L kv.2⟩ w.nextEvent ∈
          (streamWaitForCalls L w.device w.nextEvent waiter (lua_entries sources)).filter
            CudaCall.isWait := by
        rw [hf, heq2]; exact List.mem_singleton_self _
      exact (List.mem_filter.1 hmem).1

/-- C4, witness: `streamWaitFor(0, {1, 2})` on device 0 with two reserved
streams. -/
theorem streamWaitFor_one_event_one_wait_witness :
    callsSince (idle 0) (cutorch_streamWaitFor noCoercion ⟨1, 2⟩ (.number 0) (luaList [1, 2])
      (idle 0)).2 =
      [.eventCreate 0, .eventRecord 0 ⟨0, 1⟩, .eventRecord 0 ⟨0, 2⟩,
        .streamWaitEvent ⟨0, 0⟩ 0, .eventDestroy 0] :=
  ((streamWaitFor_one_event_one_wait noCoercion ⟨1, 2⟩ (.number 0) (luaList [1, 2]) (idle 0)
    (by decide) (by decide) (by decide)).2 (by decide)).1

/-- C7: for a list of n ≥ 2 valid queues of the current device,
`streamBarrier` returns (given an unfailing runtime), and a call that returns
has made exactly these calls, in this order: one event created; that event
recorded once on each listed queue, in list order; one wait on that same event
for each listed queue, in list order; the event destroyed. So every record
comes before every wait and each queue waits on the event recorded on it. -/
theorem streamBarrier_records_then_waits (L : lua_State) (state : THCState)
    (queues : LuaValue) (w : CudaRuntime)
    (hs : ValidList L state w.device queues) (hn : 2 ≤ (lua_entries queues).length) :
    (w.budget = none → (cutorch_streamBarrier L state queues w).1 = .ok ()) ∧
    ((cutorch_streamBarrier L state queues w).1 = .ok () →
      callsSince w (cutorch_streamBarrier L state queues w).2 =
        .eventCreate w.nextEvent ::
          ((lua_entries queues).map fun kv =>
            .eventRecord w.nextEvent ⟨w.device, streamIdOf L kv.2⟩) ++
          ((lua_entries queues).map fun kv =>
            .streamWaitEvent ⟨w.device, streamIdOf L kv.2⟩ w.nextEvent) ++
          [.eventDestroy w.nextEvent]) := by
  have hnt : ¬ (lua_entries queues).length < 2 := by omega
  rw [streamBarrier_eq]
  refine ⟨fun hb => ?_, fun hok => ?_⟩
  · rw [entryPoint_unbounded _ _ _ _ hb hs]
  · obtain ⟨_, b, heq⟩ := entryPoint_ok hok
    rw [heq, if_neg hnt, callsSince_applyAll]
    rfl

/-- C7, witness: `streamBarrier({1, 2})` on device 0 with two reserved streams. -/
theorem streamBarrier_records_then_waits_witness :
    callsSince (idle 0) (cutorch_streamBarrier noCoercion ⟨1, 2⟩ (luaList [1, 2]) (idle 0)).2 =
      [.eventCreate 0, .eventRecord 0 ⟨0, 1⟩, .eventRecord 0 ⟨0, 2⟩,
        .streamWaitEvent ⟨0, 1⟩ 0, .streamWaitEvent ⟨0, 2⟩ 0, .eventDestroy 0] :=
  (streamBarrier_records_then_waits noCoercion ⟨1, 2⟩ (luaList [1, 2]) (idle 0)
    (by decide) (by decide)).2 (by decide)

/-! ## C8: trivial input -/

/-- On a trivial input an entry point makes no state-changing runtime call,
whatever the outcome of the argument checks, and returns successfully when the
checks pass and `cudaGetDevice` itself succeeds. -/
theorem entryPoint_noop {valid trivial : Prop} [Decidable valid] [Decidable trivial]
    {plan : List CudaCall} {w : CudaRuntime} (ht : trivial) :
    callsSince w (entryPoint valid trivial plan w).2 = [] ∧
      (entryPoint valid trivial plan w).2.device = w.device ∧
      (valid → w.budget ≠ some 0 → (entryPoint valid trivial plan w).1 = .ok ()) := by
  rcases entryPoint_cases valid trivial plan w with ⟨h0, h1⟩ | ⟨b, hv, h1⟩ | ⟨b, _, _, h1⟩ |
    ⟨b, _, ht2, _⟩ | ⟨n, _, ht2, _, _, _⟩
  · rw [h1]
    exact ⟨by simp [callsSince], rfl, fun _ hb => absurd h0 hb⟩
  · rw [h1]
    exact ⟨callsSince_withBudget w b, rfl, fun hv2 _ => absurd hv2 hv⟩
  · rw [h1]
    exact ⟨callsSince_withBudget w b, rfl, fun _ _ => rfl⟩
  · exact absurd ht ht2
  · exact absurd ht ht2

/-- C8: trivial input is a no-op. `streamWaitFor` with an empty source list,
`streamBarrier` with fewer than 2 queues, and `streamWaitForMultiDevice` /
`streamBarrierMultiDevice` with fewer than 2 listed queues in total, whatever
the number of groups, make no event call and no device switch, and they return
successfully when their arguments pass the argument checks (the runtime
answering the initial `cudaGetDevice`). -/
theorem trivial_input_is_noop (L : lua_State) (state : THCState)
    (arg1 arg2 arg3 : LuaValue) (w : CudaRuntime) :
    ((lua_entries arg2).length = 0 →
      callsSince w (cutorch_streamWaitFor L state arg1 arg2 w).2 = [] ∧
      (cutorch_streamWaitFor L state arg1 arg2 w).2.device = w.device ∧
      (ValidWaiter L state w.device arg1 ∧ ValidList L state w.device arg2 →
        w.budget ≠ some 0 → (cutorch_streamWaitFor L state arg1 arg2 w).1 = .ok ())) ∧
    ((lua_entries arg1).length < 2 →
      callsSince w (cutorch_streamBarrier L state arg1 w).2 = [] ∧
      (cutorch_streamBarrier L state arg1 w).2.device = w.device ∧
      (ValidList L state w.device arg1 →
        w.budget ≠ some 0 → (cutorch_streamBarrier L state arg1 w).1 = .ok ())) ∧
    (totalStreams (lua_entries arg3) < 2 →
      callsSince w (cutorch_streamWaitForMultiDevice L state arg1 arg2 arg3 w).2 = [] ∧
      (cutorch_streamWaitForMultiDevice L state arg1 arg2 arg3 w).2.device = w.device ∧
      (ValidMultiWaiter L state arg1 arg2 ∧ ValidTable L state arg3 →
        w.budget ≠ some 0 →
        (cutorch_streamWaitForMultiDevice L state arg1 arg2 arg3 w).1 = .ok ())) ∧
    (totalStreams (lua_entries arg1) < 2 →
      callsSince w (cutorch_streamBarrierMultiDevice L state arg1 w).2 = [] ∧
      (cutorch_streamBarrierMultiDevice L state arg1 w).2.device = w.device ∧
      (ValidTable L state arg1 →
        w.budget ≠ some 0 → (cutorch_streamBarrierMultiDevice L state arg1 w).1 = .ok ())) := by
  refine ⟨fun h0 => ?_, fun h2 => ?_, fun h2 => ?_, fun h2 => ?_⟩
  · rw [streamWaitFor_eq]
    exact entryPoint_noop (by omega)
  · rw [streamBarrier_eq]
    exact entryPoint_noop h2
  · rw [streamWaitForMultiDevice_eq]
    exact entryPoint_noop h2
  · rw [streamBarrierMultiDevice_eq]
    exact entryPoint_noop h2

/-- C8, witness: `streamWaitForMultiDevice(1, 0, {[1] = {}, [2] = {1}})`, two
groups with one listed queue in total, returns without any call. -/
theorem trivial_input_is_noop_witness :
    totalStreams (lua_entries twoGroupsOneStream) = 1 ∧
    cutorch_streamWaitForMultiDevice noCoercion ⟨2, 1⟩ (.number 1) (.number 0)
      twoGroupsOneStream (idle 0) = (.ok (), idle 0) ∧
    callsSince (idle 0) (cutorch_streamWaitForMultiDevice noCoercion ⟨2, 1⟩ (.number 1)
      (.number 0) twoGroupsOneStream (idle 0)).2 = [] :=
  ⟨by decide, by decide,
    ((trivial_input_is_noop noCoercion ⟨2, 1⟩ (.number 1) (.number 0) twoGroupsOneStream
      (idle 0)).2.2.1 (by decide)).1⟩

/-! ## C5 and C6: the multi-device operations -/

theorem filter_createCalls_of_not (p : CudaCall → Bool) (L : lua_State)
    (groups : List (LuaValue × LuaValue)) (first : cudaEvent_t)
    (hs : ∀ d, p (.setDevice d) = false) (hc : ∀ e, p (.eventCreate e) = false)
    (hr : ∀ e s, p (.eventRecord e s) = false) :
    (createCalls L groups first).filter p = [] := by
  induction groups generalizing first with
  | nil => rfl
  | cons kv rest ih =>
    simp only [createCalls, groupCreateCalls, List.cons_append, List.filter_cons, hs, hc,
      List.filter_append, ih, filter_recordCalls_of_not p _ _ _ _ hr, Bool.false_eq_true,
      if_false, List.append_nil]

theorem filter_isRecord_recordCalls (L : lua_State) (device : Int) (event : cudaEvent_t)
    (entries : List (LuaValue × LuaValue)) :
    (recordCalls L device event entries).filter CudaCall.isRecord =
      recordCalls L device event entries := by
  rw [List.filter_eq_self]
  intro c hc
  simp only [recordCalls, List.mem_map] at hc
  obtain ⟨kv, _, rfl⟩ := hc
  rfl

theorem filter_isWait_waitCalls (stream : cudaStream_t) (events : List cudaEvent_t) :
    (waitCalls stream events).filter CudaCall.isWait = waitCalls stream events := by
  rw [List.filter_eq_self]
  intro c hc
  simp only [waitCalls, List.mem_map] at hc
  obtain ⟨e, _, rfl⟩ := hc
  rfl

/-- The records among the calls of `createMultiDeviceEvents`: group by group,
the group's own event on the group's listed streams. -/
theorem filter_isRecord_createCalls (L : lua_State) (groups : List (LuaValue × LuaValue))
    (first : cudaEvent_t) :
    (createCalls L groups first).filter CudaCall.isRecord =
      (groups.zip (List.range' first groups.length)).flatMap fun p =>
        recordCalls L (deviceOf L p.1.1) p.2 (lua_entries p.1.2) := by
  induction groups generalizing first with
  | nil => rfl
  | cons kv rest ih =>
    simp only [createCalls, groupCreateCalls, List.cons_append, List.filter_cons,
      CudaCall.isRecord, List.filter_append, ih, filter_isRecord_recordCalls,
      List.length_cons, List.range'_succ, List.zip_cons_cons, List.flatMap_cons,
      Bool.false_eq_true, if_false]

/-- The waits among the calls of `waitMultiDeviceEvents`: each listed queue,
in order, on each of the events. -/
theorem filter_isWait_groupWaitCalls (L : lua_State) (events : List cudaEvent_t)
    (groups : List (LuaValue × LuaValue)) :
    (groups.flatMap (groupWaitCalls L events)).filter CudaCall.isWait =
      (queuesOf L groups).flatMap fun q => waitCalls q events := by
  induction groups with
  | nil => rfl
  | cons kv rest ih =>
    have hinner : ∀ entries : List (LuaValue × LuaValue),
        (entries.flatMap fun s =>
          waitCalls ⟨deviceOf L kv.1, streamIdOf L s.2⟩ events).filter CudaCall.isWait =
        (entries.map fun s => (⟨deviceOf L kv.1, streamIdOf L s.2⟩ : cudaStream_t)).flatMap
          fun q => waitCalls q events := by
      intro entries
      induction entries with
      | nil => rfl
      | cons s ss ihs =>
        simp only [List.flatMap_cons, List.filter_append, filter_isWait_waitCalls, ihs,
          List.map_cons]
    simp only [List.flatMap_cons, List.filter_append, ih, groupWaitCalls, List.filter_cons,
      CudaCall.isWait, hinner, queuesOf, List.flatMap_append, Bool.false_eq_true, if_false]

theorem length_queuesOf (L : lua_State) (groups : List (LuaValue × LuaValue)) :
    (queuesOf L groups).length = totalStreams groups := by
  induction groups with
  | nil => rfl
  | cons kv rest ih =>
    simp only [queuesOf, totalStreams, List.flatMap_cons, List.length_append, List.length_map,
      List.map_cons, List.sum_cons] at ih ⊢
    rw [ih]

theorem length_flatMap_waitCalls (queues : List cudaStream_t) (events : List cudaEvent_t) :
    (queues.flatMap fun q => waitCalls q events).length = queues.length * events.length := by
  induction queues with
  | nil => simp
  | cons q qs ih =>
    have hq : (waitCalls q events).length = events.length := by simp [waitCalls]
    rw [List.flatMap_cons, List.length_append, ih, hq, List.length_cons]
    ring

theorem not_isWait_of_mem_createCalls (L : lua_State) (groups : List (LuaValue × LuaValue))
    (first : cudaEvent_t) : ∀ c ∈ createCalls L groups first, CudaCall.isWait c = false := by
  have h := filter_createCalls_of_not CudaCall.isWait L groups first (fun _ => rfl)
    (fun _ => rfl) (fun _ _ => rfl)
  rw [List.filter_eq_nil_iff] at h
  intro c hc
  simpa using h c hc

theorem not_isRecord_of_filter_nil {cs : List CudaCall}
    (h : cs.filter CudaCall.isRecord = []) : ∀ c ∈ cs, CudaCall.isRecord c = false := by
  rw [List.filter_eq_nil_iff] at h
  intro c hc
  simpa using h c hc

/-- The calls of a non-trivial `streamWaitForMultiDevice`, read off by kind. -/
theorem waitForMultiCalls_facts (L : lua_State) (prevDev : Int) (first : cudaEvent_t)
    (gpuWaiter streamWaiter : LuaValue) (groups : List (LuaValue × LuaValue)) :
    (streamWaitForMultiDeviceCalls L prevDev first gpuWaiter streamWaiter groups).filter
        CudaCall.isCreate = (List.range' first groups.length).map CudaCall.eventCreate ∧
    (streamWaitForMultiDeviceCalls L prevDev first gpuWaiter streamWaiter groups).filter
        CudaCall.isRecord =
      ((groups.zip (List.range' first groups.length)).flatMap fun p =>
        recordCalls L (deviceOf L p.1.1) p.2 (lua_entries p.1.2)) ∧
    (streamWaitForMultiDeviceCalls L prevDev first gpuWaiter streamWaiter groups).filter
        CudaCall.isWait =
      waitCalls ⟨deviceOf L gpuWaiter, streamIdOf L streamWaiter⟩
        (List.range' first groups.length) ∧
    ∃ pre post, streamWaitForMultiDeviceCalls L prevDev first gpuWaiter streamWaiter groups =
        pre ++ post ∧ (∀ c ∈ pre, CudaCall.isWait c = false) ∧
      (∀ c ∈ post, CudaCall.isRecord c = false) := by
  refine ⟨?_, ?_, ?_, ?_⟩
  · simp only [streamWaitForMultiDeviceCalls, List.filter_append, List.filter_cons,
      filter_isCreate_createCalls, CudaCall.isCreate,
      filter_waitCalls_of_not CudaCall.isCreate _ _ (fun _ _ => rfl),
      filter_destroyCalls_of_not CudaCall.isCreate _ (fun _ => rfl), Bool.false_eq_true,
      if_false, List.filter_nil, List.append_nil]
  · simp only [streamWaitForMultiDeviceCalls, List.filter_append, List.filter_cons,
      filter_isRecord_createCalls, CudaCall.isRecord,
      filter_waitCalls_of_not CudaCall.isRecord _ _ (fun _ _ => rfl),
      filter_destroyCalls_of_not CudaCall.isRecord _ (fun _ => rfl), Bool.false_eq_true,
      if_false, List.filter_nil, List.append_nil]
  · simp only [streamWaitForMultiDeviceCalls, List.filter_append, List.filter_cons,
      filter_createCalls_of_not CudaCall.isWait _ _ _ (fun _ => rfl) (fun _ => rfl)
        (fun _ _ => rfl), CudaCall.isWait, filter_isWait_waitCalls,
      filter_destroyCalls_of_not CudaCall.isWait _ (fun _ => rfl), Bool.false_eq_true,
      if_false, List.filter_nil, List.append_nil, List.nil_append]
  · refine ⟨createCalls L groups first,
      .setDevice (deviceOf L gpuWaiter) ::
        waitCalls ⟨deviceOf L gpuWaiter, streamIdOf L streamWaiter⟩
          (List.range' first groups.length) ++
        destroyCalls (List.range' first groups.length) ++ [.setDevice prevDev], ?_,
      not_isWait_of_mem_createCalls L groups first, ?_⟩
    · simp [streamWaitForMultiDeviceCalls]
    · apply not_isRecord_of_filter_nil
      simp only [List.filter_append, List.cons_append, List.filter_cons, CudaCall.isRecord,
        filter_waitCalls_of_not CudaCall.isRecord _ _ (fun _ _ => rfl),
        filter_destroyCalls_of_not CudaCall.isRecord _ (fun _ => rfl), Bool.false_eq_true,
        if_false, List.filter_nil, List.append_nil]

/-- The calls of a non-trivial `streamBarrierMultiDevice`, read off by kind. -/
theorem barrierMultiCalls_facts (L : lua_State) (prevDev : Int) (first : cudaEvent_t)
    (groups : List (LuaValue × LuaValue)) :
    (streamBarrierMultiDeviceCalls L prevDev first groups).filter CudaCall.isCreate =
      (List.range' first groups.length).map CudaCall.eventCreate ∧
    (streamBarrierMultiDeviceCalls L prevDev first groups).filter CudaCall.isWait =
      ((queuesOf L groups).flatMap fun q => waitCalls q (List.range' first groups.length)) ∧
    (streamBarrierMultiDeviceCalls L prevDev first groups).countP CudaCall.isWait =
      totalStreams groups * groups.length ∧
    ∃ pre post, streamBarrierMultiDeviceCalls L prevDev first groups = pre ++ post ∧
      (∀ c ∈ pre, CudaCall.isWait c = false) ∧ (∀ c ∈ post, CudaCall.isRecord c = false) := by
  have hwait : (streamBarrierMultiDeviceCalls L prevDev first groups).filter CudaCall.isWait =
      ((queuesOf L groups).flatMap fun q => waitCalls q (List.range' first groups.length)) := by
    simp only [streamBarrierMultiDeviceCalls, List.filter_append, List.filter_cons,
      filter_createCalls_of_not CudaCall.isWait _ _ _ (fun _ => rfl) (fun _ => rfl)
        (fun _ _ => rfl), CudaCall.isWait, filter_isWait_groupWaitCalls,
      filter_destroyCalls_of_not CudaCall.isWait _ (fun _ => rfl), Bool.false_eq_true,
      if_false, List.filter_nil, List.append_nil, List.nil_append]
  refine ⟨?_, hwait, ?_, ?_⟩
  · simp only [streamBarrierMultiDeviceCalls, List.filter_append, List.filter_cons,
      filter_isCreate_createCalls, CudaCall.isCreate,
      filter_groupWaitCalls_of_not CudaCall.isCreate _ _ _ (fun _ _ => rfl) (fun _ => rfl),
      filter_destroyCalls_of_not CudaCall.isCreate _ (fun _ => rfl), Bool.false_eq_true,
      if_false, List.filter_nil, List.append_nil]
  · rw [List.countP_eq_length_filter, hwait, length_flatMap_waitCalls, length_queuesOf,
      List.length_range']
  · refine ⟨createCalls L groups first,
      groups.flatMap (groupWaitCalls L (List.range' first groups.length)) ++
        destroyCalls (List.range' first groups.length) ++ [.setDevice prevDev], ?_,
      not_isWait_of_mem_createCalls L groups first, ?_⟩
    · simp [streamBarrierMultiDeviceCalls]
    · apply not_isRecord_of_filter_nil
      simp only [List.filter_append, List.filter_cons, CudaCall.isRecord,
        filter_groupWaitCalls_of_not CudaCall.isRecord _ _ _ (fun _ _ => rfl) (fun _ => rfl),
        filter_destroyCalls_of_not CudaCall.isRecord _ (fun _ => rfl), Bool.false_eq_true,
        if_false, List.filter_nil, List.append_nil]

/-- C5: for a valid waiter (Dw, Qw) and a validated group table with at least
2 source queues in total, `streamWaitForMultiDevice` returns (given an unfailing
runtime), and a call that returns has made exactly these calls, in this order:
for each group, a switch to the group's device, the creation of the group's
event and its record on each queue the group lists; a switch to Dw; one wait of
(Dw, Qw) on each created event; the destruction of each event; a switch back.
Hence the records are the groups' own, the waits are one per event and all on
(Dw, Qw), and every wait comes after every record. -/
theorem streamWaitForMultiDevice_records_then_waiter_waits (L : lua_State) (state : THCState)
    (gpuWaiter streamWaiter table : LuaValue) (w : CudaRuntime)
    (hw : ValidMultiWaiter L state gpuWaiter streamWaiter) (ht : ValidTable L state table)
    (hn : 2 ≤ totalStreams (lua_entries table)) :
    (w.budget = none →
      (cutorch_streamWaitForMultiDevice L state gpuWaiter streamWaiter table w).1 = .ok ()) ∧
    ((cutorch_streamWaitForMultiDevice L state gpuWaiter streamWaiter table w).1 = .ok () →
      callsSince w (cutorch_streamWaitForMultiDevice L state gpuWaiter streamWaiter table w).2 =
        createCalls L (lua_entries table) w.nextEvent ++
          .setDevice (deviceOf L gpuWaiter) ::
            waitCalls ⟨deviceOf L gpuWaiter, streamIdOf L streamWaiter⟩
              (List.range' w.nextEvent (lua_entries table).length) ++
          destroyCalls (List.range' w.nextEvent (lua_entries table).length) ++
          [.setDevice w.device] ∧
      (callsSince w (cutorch_streamWaitForMultiDevice L state gpuWaiter streamWaiter table
          w).2).filter CudaCall.isCreate =
        (List.range' w.nextEvent (lua_entries table).length).map CudaCall.eventCreate ∧
      (callsSince w (cutorch_streamWaitForMultiDevice L state gpuWaiter streamWaiter table
          w).2).filter CudaCall.isRecord =
        (((lua_entries table).zip
          (List.range' w.nextEvent (lua_entries table).length)).flatMap fun p =>
            recordCalls L (deviceOf L p.1.1) p.2 (lua_entries p.1.2)) ∧
      (callsSince w (cutorch_streamWaitForMultiDevice L state gpuWaiter streamWaiter table
          w).2).filter CudaCall.isWait =
        waitCalls ⟨deviceOf L gpuWaiter, streamIdOf L streamWaiter⟩
          (List.range' w.nextEvent (lua_entries table).length) ∧
      ∃ pre post,
        callsSince w (cutorch_streamWaitForMultiDevice L state gpuWaiter streamWaiter table
          w).2 = pre ++ post ∧
        (∀ c ∈ pre, CudaCall.isWait c = false) ∧ (∀ c ∈ post, CudaCall.isRecord c = false)) := by
  have hnt : ¬ totalStreams (lua_entries table) < 2 := by omega
  rw [streamWaitForMultiDevice_eq]
  refine ⟨fun hb => ?_, fun hok => ?_⟩
  · rw [entryPoint_unbounded _ _ _ _ hb ⟨hw, ht⟩]
  · obtain ⟨_, b, heq⟩ := entryPoint_ok hok
    rw [heq, if_neg hnt, callsSince_applyAll]
    exact ⟨rfl, waitForMultiCalls_facts L w.device w.nextEvent gpuWaiter streamWaiter _⟩

/-- C5, witness: waiter (device 1, queue 0) with groups `{[2] = {1, 2}, [3] = {1}}`
gives 2 events, 3 records and 2 waits, both on the waiter. -/
theorem streamWaitForMultiDevice_records_then_waiter_waits_witness :
    callsSince (idle 0) (cutorch_streamWaitForMultiDevice noCoercion ⟨3, 2⟩ (.number 1)
      (.number 0) twoDevicesThreeStreams (idle 0)).2 =
      [.setDevice 1, .eventCreate 0, .eventRecord 0 ⟨1, 1⟩, .eventRecord 0 ⟨1, 2⟩,
        .setDevice 2, .eventCreate 1, .eventRecord 1 ⟨2, 1⟩,
        .setDevice 0, .streamWaitEvent ⟨0, 0⟩ 0, .streamWaitEvent ⟨0, 0⟩ 1,
        .eventDestroy 0, .eventDestroy 1, .setDevice 0] :=
  ((streamWaitForMultiDevice_records_then_waiter_waits noCoercion ⟨3, 2⟩ (.number 1)
    (.number 0) twoDevicesThreeStreams (idle 0) (by decide) (by decide) (by decide)).2
      (by decide)).1

/-- C6: for a validated group table with N ≥ 2 listed queues in total over k
groups, `streamBarrierMultiDevice` returns (given an unfailing runtime), and a
call that returns has made exactly these calls, in this order: for each group,
a switch to its device, the creation of its event and its record on each queue
it lists; for each group again, a switch to its device and, for each queue it
lists, one wait on each of the k events; the destruction of each event; a
switch back. Hence k events are created, the waits are exactly one per listed
queue and event, N * k in all, and every wait comes after every record. -/
theorem streamBarrierMultiDevice_every_queue_waits_on_every_event (L : lua_State)
    (state : THCState) (table : LuaValue) (w : CudaRuntime)
    (ht : ValidTable L state table) (hn : 2 ≤ totalStreams (lua_entries table)) :
    (w.budget = none → (cutorch_streamBarrierMultiDevice L state table w).1 = .ok ()) ∧
    ((cutorch_streamBarrierMultiDevice L state table w).1 = .ok () →
      callsSince w (cutorch_streamBarrierMultiDevice L state table w).2 =
        createCalls L (lua_entries table) w.nextEvent ++
          (lua_entries table).flatMap
            (groupWaitCalls L (List.range' w.nextEvent (lua_entries table).length)) ++
          destroyCalls (List.range' w.nextEvent (lua_entries table).length) ++
          [.setDevice w.device] ∧
      (callsSince w (cutorch_streamBarrierMultiDevice L state table w).2).filter
          CudaCall.isCreate =
        (List.range' w.nextEvent (lua_entries table).length).map CudaCall.eventCreate ∧
      (callsSince w (cutorch_streamBarrierMultiDevice L state table w).2).filter
          CudaCall.isWait =
        ((queuesOf L (lua_entries table)).flatMap fun q =>
          waitCalls q (List.range' w.nextEvent (lua_entries table).length)) ∧
      (callsSince w (cutorch_streamBarrierMultiDevice L state table w).2).countP
          CudaCall.isWait =
        totalStreams (lua_entries table) * (lua_entries table).length ∧
      ∃ pre post,
        callsSince w (cutorch_streamBarrierMultiDevice L state table w).2 = pre ++ post ∧
        (∀ c ∈ pre, CudaCall.isWait c = false) ∧ (∀ c ∈ post, CudaCall.isRecord c = false)) := by
  have hnt : ¬ totalStreams (lua_entries table) < 2 := by omega
  rw [streamBarrierMultiDevice_eq]
  refine ⟨fun hb => ?_, fun hok => ?_⟩
  · rw [entryPoint_unbounded _ _ _ _ hb ht]
  · obtain ⟨_, b, heq⟩ := entryPoint_ok hok
    rw [heq, if_neg hnt, callsSince_applyAll]
    exact ⟨rfl, barrierMultiCalls_facts L w.device w.nextEvent _⟩

/-- C6, witness: the groups `{[2] = {1, 2}, [3] = {1}}` list N = 3 queues over
k = 2 groups; the barrier installs 3 * 2 = 6 waits. -/
theorem streamBarrierMultiDevice_every_queue_waits_on_every_event_witness :
    callsSince (idle 0) (cutorch_streamBarrierMultiDevice noCoercion ⟨3, 2⟩
      twoDevicesThreeStreams (idle 0)).2 =
      [.setDevice 1, .eventCreate 0, .eventRecord 0 ⟨1, 1⟩, .eventRecord 0 ⟨1, 2⟩,
        .setDevice 2, .eventCreate 1, .eventRecord 1 ⟨2, 1⟩,
        .setDevice 1, .streamWaitEvent ⟨1, 1⟩ 0, .streamWaitEvent ⟨1, 1⟩ 1,
        .streamWaitEvent ⟨1, 2⟩ 0, .streamWaitEvent ⟨1, 2⟩ 1,
        .setDevice 2, .streamWaitEvent ⟨2, 1⟩ 0, .streamWaitEvent ⟨2, 1⟩ 1,
        .eventDestroy 0, .eventDestroy 1, .setDevice 0] :=
  ((streamBarrierMultiDevice_every_queue_waits_on_every_event noCoercion ⟨3, 2⟩
    twoDevicesThreeStreams (idle 0) (by decide) (by decide)).2 (by decide)).1

/-! ## C9: event lifetimes -/

theorem lifetimes_uses (cs rest : List CudaCall) (created destroyed : List cudaEvent_t)
    (h : ∀ c ∈ cs, UsesLive created destroyed c) :
    lifetimes (cs ++ rest) created destroyed = lifetimes rest created destroyed := by
  induction cs with
  | nil => rfl
  | cons c cs ih =>
    have hc := h c (List.mem_cons_self _ _)
    have ih2 := ih (fun x hx => h x (List.mem_cons_of_mem _ hx))
    cases c with
    | setDevice d => simpa [lifetimes] using ih2
    | eventCreate e => exact absurd hc (by simp [UsesLive])
    | eventRecord e s =>
      simp only [UsesLive] at hc
      simp [lifetimes, hc.1, hc.2, ih2]
    | streamWaitEvent s e =>
      simp only [UsesLive] at hc
      simp [lifetimes, hc.1, hc.2, ih2]
    | eventDestroy e => exact absurd hc (by simp [UsesLive])

theorem usesLive_recordCalls (L : lua_State) (device : Int) (event : cudaEvent_t)
    (entries : List (LuaValue × LuaValue)) (created destroyed : List cudaEvent_t)
    (hc : event ∈ created) (hd : event ∉ destroyed) :
    ∀ c ∈ recordCalls L device event entries, UsesLive created destroyed c := by
  intro c hmem
  simp only [recordCalls, List.mem_map] at hmem
  obtain ⟨kv, _, rfl⟩ := hmem
  exact ⟨hc, hd⟩

theorem usesLive_waitCalls (stream : cudaStream_t) (events created destroyed : List cudaEvent_t)
    (h : ∀ e ∈ events, e ∈ created ∧ e ∉ destroyed) :
    ∀ c ∈ waitCalls stream events, UsesLive created destroyed c := by
  intro c hmem
  simp only [waitCalls, List.mem_map] at hmem
  obtain ⟨e, he, rfl⟩ := hmem
  exact h e he

theorem usesLive_groupWaitCalls (L : lua_State) (groups : List (LuaValue × LuaValue))
    (events created destroyed : List cudaEvent_t)
    (h : ∀ e ∈ events, e ∈ created ∧ e ∉ destroyed) :
    ∀ c ∈ groups.flatMap (groupWaitCalls L events), UsesLive created destroyed c := by
  intro c hmem
  simp only [List.mem_flatMap, groupWaitCalls, List.mem_cons] at hmem
  obtain ⟨kv, _, rfl | ⟨s, _, hs⟩⟩ := hmem
  · exact True.intro
  · exact usesLive_waitCalls _ _ _ _ h c hs

theorem lifetimes_setDevice (d : Int) (cs : List CudaCall)
    (created destroyed : List cudaEvent_t) :
    lifetimes (.setDevice d :: cs) created destroyed = lifetimes cs created destroyed := rfl

theorem lifetimes_create (e : cudaEvent_t) (cs : List CudaCall)
    (created destroyed : List cudaEvent_t) (h : e ∉ created) :
    lifetimes (.eventCreate e :: cs) created destroyed =
      lifetimes cs (e :: created) destroyed := by
  simp [lifetimes, h]

theorem lifetimes_destroy (e : cudaEvent_t) (cs : List CudaCall)
    (created destroyed : List cudaEvent_t) (h1 : e ∈ created) (h2 : e ∉ destroyed) :
    lifetimes (.eventDestroy e :: cs) created destroyed =
      lifetimes cs created (e :: destroyed) := by
  simp [lifetimes, h1, h2]

/-- Through the calls of `createMultiDeviceEvents` the fresh events of the
groups become created, none destroyed. -/
theorem lifetimes_createCalls (L : lua_State) (groups : List (LuaValue × LuaValue))
    (first : cudaEvent_t) (rest : List CudaCall) (created destroyed : List cudaEvent_t)
    (hc : ∀ e ∈ created, e < first) (hd : ∀ e ∈ destroyed, e < first) :
    lifetimes (createCalls L groups first ++ rest) created destroyed =
      lifetimes rest ((List.range' first groups.length).reverse ++ created) destroyed := by
  induction groups generalizing first created with
  | nil => rfl
  | cons kv rest2 ih =>
    have hfresh : first ∉ created := fun hm => Nat.lt_irrefl _ (hc first hm)
    have hfresh2 : first ∉ destroyed := fun hm => Nat.lt_irrefl _ (hd first hm)
    have hlist : createCalls L (kv :: rest2) first ++ rest =
        .setDevice (deviceOf L kv.1) :: .eventCreate first ::
          (recordCalls L (deviceOf L kv.1) first (lua_entries kv.2) ++
            (createCalls L rest2 (first + 1) ++ rest)) := by
      simp [createCalls, groupCreateCalls]
    rw [hlist, lifetimes_setDevice, lifetimes_create _ _ _ _ hfresh]
    rw [lifetimes_uses _ _ _ _ (usesLive_recordCalls L _ first _ _ _
      (List.mem_cons_self _ _) hfresh2)]
    rw [ih (first + 1) (first :: created)
      (fun e he => by
        rcases List.mem_cons.1 he with rfl | he
        · exact Nat.lt_succ_self _
        · exact Nat.lt_succ_of_lt (hc e he))
      (fun e he => Nat.lt_succ_of_lt (hd e he))]
    simp only [List.length_cons, List.range'_succ, List.reverse_cons, List.append_assoc,
      List.singleton_append]

/-- Through the destruction of distinct live events they all become destroyed. -/
theorem lifetimes_destroyCalls (events : List cudaEvent_t) (rest : List CudaCall)
    (created destroyed : List cudaEvent_t) (hsub : ∀ e ∈ events, e ∈ created)
    (hnodup : events.Nodup) (hd : ∀ e ∈ events, e ∉ destroyed) :
    lifetimes (destroyCalls events ++ rest) created destroyed =
      lifetimes rest created (events.reverse ++ destroyed) := by
  induction events generalizing destroyed with
  | nil => rfl
  | cons e es ih =>
    have hnd := List.nodup_cons.1 hnodup
    have hlist : destroyCalls (e :: es) ++ rest = .eventDestroy e :: (destroyCalls es ++ rest) :=
      rfl
    rw [hlist, lifetimes_destroy _ _ _ _ (hsub e (List.mem_cons_self _ _))
      (hd e (List.mem_cons_self _ _))]
    rw [ih (e :: destroyed) (fun x hx => hsub x (List.mem_cons_of_mem _ hx)) hnd.2
      (fun x hx hmem => by
        rcases List.mem_cons.1 hmem with rfl | hmem
        · exact hnd.1 hx
        · exact hd x (List.mem_cons_of_mem _ hx) hmem)]
    simp only [List.reverse_cons, List.append_assoc, List.singleton_append]

theorem lifetimes_end (events : List cudaEvent_t) (d : Int) :
    lifetimes [.setDevice d] (events.reverse ++ []) (events.reverse ++ []) = true := by
  simp [lifetimes]

theorem localLifetimes_streamWaitForCalls (L : lua_State) (device : Int) (event : cudaEvent_t)
    (waiter : LuaValue) (entries : List (LuaValue × LuaValue)) :
    LocalLifetimes (streamWaitForCalls L device event waiter entries) := by
  unfold LocalLifetimes streamWaitForCalls
  rw [List.cons_append, lifetimes_create _ _ _ _ (List.not_mem_nil _)]
  rw [lifetimes_uses _ _ _ _ (usesLive_recordCalls L _ event _ _ _ (List.mem_cons_self _ _)
    (List.not_mem_nil _))]
  simp [lifetimes]

theorem localLifetimes_streamBarrierCalls (L : lua_State) (device : Int) (event : cudaEvent_t)
    (entries : List (LuaValue × LuaValue)) :
    LocalLifetimes (streamBarrierCalls L device event entries) := by
  unfold LocalLifetimes streamBarrierCalls
  rw [List.append_assoc, List.cons_append, lifetimes_create _ _ _ _ (List.not_mem_nil _)]
  rw [lifetimes_uses _ _ _ _ (usesLive_recordCalls L _ event _ _ _ (List.mem_cons_self _ _)
    (List.not_mem_nil _))]
  rw [lifetimes_uses _ _ [event] [] (by
    intro c hc
    simp only [List.mem_map] at hc
    obtain ⟨kv, _, rfl⟩ := hc
    exact ⟨List.mem_cons_self _ _, List.not_mem_nil _⟩)]
  simp [lifetimes]

theorem mem_range'_live (first n : Nat) :
    ∀ e ∈ List.range' first n,
      e ∈ (List.range' first n).reverse ++ [] ∧ e ∉ ([] : List cudaEvent_t) := by
  intro e he
  exact ⟨by simpa using he, List.not_mem_nil _⟩

theorem localLifetimes_waitForMultiCalls (L : lua_State) (prevDev : Int) (first : cudaEvent_t)
    (gpuWaiter streamWaiter : LuaValue) (groups : List (LuaValue × LuaValue)) :
    LocalLifetimes
      (streamWaitForMultiDeviceCalls L prevDev first gpuWaiter streamWaiter groups) := by
  unfold LocalLifetimes streamWaitForMultiDeviceCalls
  rw [List.append_assoc, List.append_assoc,
    lifetimes_createCalls L groups first _ [] [] (by simp) (by simp)]
  rw [List.cons_append, lifetimes_setDevice, lifetimes_uses _ _ _ _
    (usesLive_waitCalls _ _ _ _ (mem_range'_live first groups.length))]
  rw [lifetimes_destroyCalls _ _ _ _ (fun e he => (mem_range'_live first groups.length e he).1)
    (List.nodup_range' _ _) (fun e _ => List.not_mem_nil e)]
  exact lifetimes_end _ _

theorem localLifetimes_barrierMultiCalls (L : lua_State) (prevDev : Int) (first : cudaEvent_t)
    (groups : List (LuaValue × LuaValue)) :
    LocalLifetimes (streamBarrierMultiDeviceCalls L prevDev first groups) := by
  unfold LocalLifetimes streamBarrierMultiDeviceCalls
  rw [List.append_assoc, List.append_assoc,
    lifetimes_createCalls L groups first _ [] [] (by simp) (by simp)]
  rw [lifetimes_uses _ _ _ _
    (usesLive_groupWaitCalls L groups _ _ _ (mem_range'_live first groups.length))]
  rw [lifetimes_destroyCalls _ _ _ _ (fun e he => (mem_range'_live first groups.length e he).1)
    (List.nodup_range' _ _) (fun e _ => List.not_mem_nil e)]
  exact lifetimes_end _ _

theorem entryPoint_localLifetimes {valid trivial : Prop} [Decidable valid] [Decidable trivial]
    {plan : List CudaCall} {w : CudaRuntime} (hplan : LocalLifetimes plan)
    (h : (entryPoint valid trivial plan w).1 = .ok ()) :
    LocalLifetimes (callsSince w (entryPoint valid trivial plan w).2) := by
  obtain ⟨_, b, heq⟩ := entryPoint_ok h
  rw [heq]
  by_cases ht : trivial
  · rw [if_pos ht, callsSince_withBudget]; rfl
  · rw [if_neg ht, callsSince_applyAll]; exact hplan

/-- C9: for each of the four coordination operations, the calls a successfully
returning call has made keep every event local to it: every event it created
is destroyed exactly once before it returns, every record and wait uses an
event between that event's creation and destruction, and no event is destroyed
that the call did not create. -/
theorem events_are_local_to_the_call (L : lua_State) (state : THCState)
    (arg1 arg2 arg3 : LuaValue) (w : CudaRuntime) :
    ((cutorch_streamWaitFor L state arg1 arg2 w).1 = .ok () →
      LocalLifetimes (callsSince w (cutorch_streamWaitFor L state arg1 arg2 w).2)) ∧
    ((cutorch_streamWaitForMultiDevice L state arg1 arg2 arg3 w).1 = .ok () →
      LocalLifetimes
        (callsSince w (cutorch_streamWaitForMultiDevice L state arg1 arg2 arg3 w).2)) ∧
    ((cutorch_streamBarrier L state arg1 w).1 = .ok () →
      LocalLifetimes (callsSince w (cutorch_streamBarrier L state arg1 w).2)) ∧
    ((cutorch_streamBarrierMultiDevice L state arg1 w).1 = .ok () →
      LocalLifetimes (callsSince w (cutorch_streamBarrierMultiDevice L state arg1 w).2)) := by
  refine ⟨?_, ?_, ?_, ?_⟩
  · rw [streamWaitFor_eq]
    exact entryPoint_localLifetimes (localLifetimes_streamWaitForCalls _ _ _ _ _)
  · rw [streamWaitForMultiDevice_eq]
    exact entryPoint_localLifetimes (localLifetimes_waitForMultiCalls _ _ _ _ _ _)
  · rw [streamBarrier_eq]
    exact entryPoint_localLifetimes (localLifetimes_streamBarrierCalls _ _ _ _)
  · rw [streamBarrierMultiDevice_eq]
    exact entryPoint_localLifetimes (localLifetimes_barrierMultiCalls _ _ _ _)

/-- C9, witness: `streamBarrierMultiDevice({[2] = {1, 2}, [3] = {1}})` returns
and its two events live and die inside the call. -/
theorem events_are_local_to_the_call_witness :
    (cutorch_streamBarrierMultiDevice noCoercion ⟨3, 2⟩ twoDevicesThreeStreams (idle 0)).1 =
      .ok () ∧
    LocalLifetimes (callsSince (idle 0) (cutorch_streamBarrierMultiDevice noCoercion ⟨3, 2⟩
      twoDevicesThreeStreams (idle 0)).2) :=
  ⟨by decide,
    (events_are_local_to_the_call noCoercion ⟨3, 2⟩ twoDevicesThreeStreams .nil .nil
      (idle 0)).2.2.2 (by decide)⟩

/-! ## C10: one listed queue, the two forms of the one-way wait -/

/-- C10, failing input: on device 0 with one reserved stream,
`streamWaitFor(0, {1})` creates an event, records it on queue 1, makes queue 0
wait on it and destroys it, while `streamWaitForMultiDevice(1, 0, {[1] = {1}})`,
the same waiter and the same single source queue on the same device, returns
without any call: its `streams < 2` test takes the one listed queue for
nothing to synchronize. -/
theorem streamWaitForMultiDevice_single_queue_makes_no_call :
    ValidWaiter noCoercion ⟨1, 1⟩ 0 (.number 0) ∧
    ValidList noCoercion ⟨1, 1⟩ 0 (luaList [1]) ∧
    cutorch_streamWaitFor noCoercion ⟨1, 1⟩ (.number 0) (luaList [1]) (idle 0) =
      (.ok (), ⟨0, [.eventCreate 0, .eventRecord 0 ⟨0, 1⟩, .streamWaitEvent ⟨0, 0⟩ 0,
        .eventDestroy 0], 1, none⟩) ∧
    cutorch_streamWaitForMultiDevice noCoercion ⟨1, 1⟩ (.number 1) (.number 0)
      (.table [(.number 1, luaList [1])]) (idle 0) = (.ok (), ⟨0, [], 0, none⟩) := by
  refine ⟨by decide, by decide, by decide, by decide⟩

theorem callsSince_applyAll_same (w : CudaRuntime) (cs : List CudaCall) :
    callsSince w (w.applyAll cs) = cs := by
  simp [callsSince, applyAll_calls]

theorem filter_not_setDevice_recordCalls (L : lua_State) (device : Int) (event : cudaEvent_t)
    (entries : List (LuaValue × LuaValue)) :
    (recordCalls L device event entries).filter (fun c => !CudaCall.isSetDevice c) =
      recordCalls L device event entries := by
  rw [List.filter_eq_self]
  intro c hc
  simp only [recordCalls, List.mem_map] at hc
  obtain ⟨kv, _, rfl⟩ := hc
  rfl

/-- With one group on the current device and a source list of any length but
1, `streamWaitForMultiDevice` makes the event calls of `streamWaitFor`, in the
same order, and leaves the same current device; it only adds device switches
to the device that is current anyway. -/
theorem streamWaitForMultiDevice_one_group_unless_single (L : lua_State) (state : THCState)
    (gpuWaiter waiter key sources : LuaValue) (w : CudaRuntime)
    (hg : lua_isnumber L gpuWaiter = true) (hgd : deviceOf L gpuWaiter = w.device)
    (hk : lua_isnumber L key = true) (hkd : deviceOf L key = w.device)
    (hw : ValidWaiter L state w.device waiter) (hs : ValidList L state w.device sources)
    (hlen : (lua_entries sources).length ≠ 1) (hb : w.budget = none) :
    (cutorch_streamWaitFor L state waiter sources w).1 = .ok () ∧
    (cutorch_streamWaitForMultiDevice L state gpuWaiter waiter (.table [(key, sources)]) w).1 =
      .ok () ∧
    (callsSince w (cutorch_streamWaitForMultiDevice L state gpuWaiter waiter
        (.table [(key, sources)]) w).2).filter (fun c => !CudaCall.isSetDevice c) =
      callsSince w (cutorch_streamWaitFor L state waiter sources w).2 ∧
    (cutorch_streamWaitForMultiDevice L state gpuWaiter waiter (.table [(key, sources)]) w).2.device =
      (cutorch_streamWaitFor L state waiter sources w).2.device := by
  have hmw : ValidMultiWaiter L state gpuWaiter waiter := ⟨hg, hw.1, by rw [hgd]; exact hw.2⟩
  have hvt : ValidTable L state (.table [(key, sources)]) := by
    refine ⟨rfl, ?_⟩
    intro kv hkv
    simp only [lua_entries, List.mem_singleton] at hkv
    subst hkv
    exact ⟨hk, hs.1, by rw [hkd]; exact hw.2.1, by rw [hkd]; exact hs.2⟩
  have htot : totalStreams (lua_entries (.table [(key, sources)])) =
      (lua_entries sources).length := by
    simp [totalStreams, lua_entries]
  rw [streamWaitFor_eq, streamWaitForMultiDevice_eq,
    entryPoint_unbounded _ _ _ _ hb ⟨hw, hs⟩, entryPoint_unbounded _ _ _ _ hb ⟨hmw, hvt⟩, htot]
  by_cases h0 : (lua_entries sources).length < 1
  · have h2 : (lua_entries sources).length < 2 := by omega
    rw [if_pos h0, if_pos h2]
    simp [callsSince]
  · have h2 : ¬ (lua_entries sources).length < 2 := by omega
    rw [if_neg h0, if_neg h2]
    refine ⟨rfl, rfl, ?_, ?_⟩
    · simp only [callsSince_applyAll_same]
      have hplan : streamWaitForMultiDeviceCalls L w.device w.nextEvent gpuWaiter waiter
          (lua_entries (.table [(key, sources)])) =
          .setDevice w.device :: .eventCreate w.nextEvent ::
            (recordCalls L w.device w.nextEvent (lua_entries sources) ++
              [.setDevice w.device, .streamWaitEvent ⟨w.device, streamIdOf L waiter⟩ w.nextEvent,
                .eventDestroy w.nextEvent, .setDevice w.device]) := by
        show streamWaitForMultiDeviceCalls L w.device w.nextEvent gpuWaiter waiter
          [(key, sources)] = _
        simp [streamWaitForMultiDeviceCalls, createCalls, groupCreateCalls, waitCalls,
          destroyCalls, hgd, hkd]
      rw [hplan, List.filter_cons_of_neg (by simp [CudaCall.isSetDevice]),
        List.filter_cons_of_pos (by simp [CudaCall.isSetDevice]), List.filter_append,
        filter_not_setDevice_recordCalls]
      rfl
    · show (w.applyAll _).device = (w.applyAll _).device
      unfold streamWaitForMultiDeviceCalls
      rw [applyAll_device_setDevice_last,
        applyAll_device_of_no_setDevice _ _ (streamWaitForCalls_no_setDevice _ _ _ _ _)]

/-! ## C11: the current device after a runtime failure -/

theorem applyAll_device (w : CudaRuntime) (cs : List CudaCall) :
    (w.applyAll cs).device = deviceAfter w.device cs := by
  induction cs generalizing w with
  | nil => rfl
  | cons c cs ih =>
    rw [applyAll_cons, ih]
    cases c <;> rfl

/-- A valid, non-trivial call whose budget covers `cudaGetDevice` and `n` calls
of the plan, but not the whole plan, makes those `n` calls and aborts there
with a runtime error. -/
theorem entryPoint_runtime_failure {valid trivial : Prop} [Decidable valid]
    [Decidable trivial] {plan : List CudaCall} {w : CudaRuntime} {n : Nat}
    (hv : valid) (ht : ¬ trivial) (hb : w.budget = some (n + 1)) (hn : n < plan.length) :
    entryPoint valid trivial plan w =
      (.error .runtime, (w.applyAll (plan.take n)).withBudget (some 0)) := by
  rw [entryPoint_of_spend_some (spend_succ w n hb), if_pos hv, if_neg ht, runCalls_eq]
  simp only [withBudget_budget, withBudget_applyAll, withBudget_withBudget]
  rw [if_neg (by omega)]

/-- C11, counterexample: with device 0 current, `streamBarrierMultiDevice` and
`streamWaitForMultiDevice` on the valid groups `{[2] = {1, 2}, [3] = {1}}` switch
to device 1 and then find `cudaEventCreateWithFlags` failing. Each call exits
with a runtime error and device 1 current, not device 0. -/
theorem device_not_restored_after_runtime_failure_counterexample :
    ValidTable noCoercion ⟨3, 2⟩ twoDevicesThreeStreams ∧
    ValidMultiWaiter noCoercion ⟨3, 2⟩ (.number 1) (.number 0) ∧
    (failingAfter 0 2).device = 0 ∧
    cutorch_streamBarrierMultiDevice noCoercion ⟨3, 2⟩ twoDevicesThreeStreams
      (failingAfter 0 2) = (.error .runtime, ⟨1, [.setDevice 1], 0, some 0⟩) ∧
    cutorch_streamWaitForMultiDevice noCoercion ⟨3, 2⟩ (.number 1) (.number 0)
      twoDevicesThreeStreams (failingAfter 0 2) =
      (.error .runtime, ⟨1, [.setDevice 1], 0, some 0⟩) ∧
    (cutorch_streamBarrierMultiDevice noCoercion ⟨3, 2⟩ twoDevicesThreeStreams
      (failingAfter 0 2)).2.device ≠ (failingAfter 0 2).device ∧
    (cutorch_streamWaitForMultiDevice noCoercion ⟨3, 2⟩ (.number 1) (.number 0)
      twoDevicesThreeStreams (failingAfter 0 2)).2.device ≠ (failingAfter 0 2).device := by
  refine ⟨by decide, by decide, by decide, by decide, by decide, by decide, by decide⟩

/-- C11, amended: in `streamWaitForMultiDevice` and `streamBarrierMultiDevice`
on valid arguments with at least 2 listed queues, a device switch or event
primitive that fails aborts the call at once, with a runtime error and without
a restoring switch: when the runtime lets `cudaGetDevice` and the first `n`
calls of the operation succeed and fails the next, the calls made are exactly
those `n`, and the current device at exit is the device of the last
`cudaSetDevice` among them, the device current before the call if there is
none. -/
theorem runtime_failure_exits_on_last_switched_device (L : lua_State) (state : THCState)
    (gpuWaiter streamWaiter table : LuaValue) (w : CudaRuntime) (n : Nat)
    (ht : ValidTable L state table) (h2 : 2 ≤ totalStreams (lua_entries table))
    (hb : w.budget = some (n + 1)) :
    (ValidMultiWaiter L state gpuWaiter streamWaiter →
      n < (streamWaitForMultiDeviceCalls L w.device w.nextEvent gpuWaiter streamWaiter
        (lua_entries table)).length →
      (cutorch_streamWaitForMultiDevice L state gpuWaiter streamWaiter table w).1 =
        .error .runtime ∧
      callsSince w (cutorch_streamWaitForMultiDevice L state gpuWaiter streamWaiter table w).2 =
        (streamWaitForMultiDeviceCalls L w.device w.nextEvent gpuWaiter streamWaiter
          (lua_entries table)).take n ∧
      (cutorch_streamWaitForMultiDevice L state gpuWaiter streamWaiter table w).2.device =
        deviceAfter w.device
          ((streamWaitForMultiDeviceCalls L w.device w.nextEvent gpuWaiter streamWaiter
            (lua_entries table)).take n)) ∧
    (n < (streamBarrierMultiDeviceCalls L w.device w.nextEvent (lua_entries table)).length →
      (cutorch_streamBarrierMultiDevice L state table w).1 = .error .runtime ∧
      callsSince w (cutorch_streamBarrierMultiDevice L state table w).2 =
        (streamBarrierMultiDeviceCalls L w.device w.nextEvent (lua_entries table)).take n ∧
      (cutorch_streamBarrierMultiDevice L state table w).2.device =
        deviceAfter w.device
          ((streamBarrierMultiDeviceCalls L w.device w.nextEvent
            (lua_entries table)).take n)) := by
  have hnt : ¬ totalStreams (lua_entries table) < 2 := by omega
  refine ⟨fun hw hn => ?_, fun hn => ?_⟩
  · rw [streamWaitForMultiDevice_eq, entryPoint_runtime_failure ⟨hw, ht⟩ hnt hb hn]
    exact ⟨rfl, callsSince_applyAll _ _ _, by rw [withBudget_device, applyAll_device]⟩
  · rw [streamBarrierMultiDevice_eq, entryPoint_runtime_failure ht hnt hb hn]
    exact ⟨rfl, callsSince_applyAll _ _ _, by rw [withBudget_device, applyAll_device]⟩

/-- C11, witness: with device 0 current, `streamWaitForMultiDevice(1, 0,
{[2] = {1, 2}, [3] = {1}})` whose sixth state-changing call, the creation of
the second event, fails has made five calls and exits with device 2 current. -/
theorem runtime_failure_exits_on_last_switched_device_witness :
    callsSince (failingAfter 0 6) (cutorch_streamWaitForMultiDevice noCoercion ⟨3, 2⟩
      (.number 1) (.number 0) twoDevicesThreeStreams (failingAfter 0 6)).2 =
      [.setDevice 1, .eventCreate 0, .eventRecord 0 ⟨1, 1⟩, .eventRecord 0 ⟨1, 2⟩,
        .setDevice 2] ∧
    (cutorch_streamWaitForMultiDevice noCoercion ⟨3, 2⟩ (.number 1) (.number 0)
      twoDevicesThreeStreams (failingAfter 0 6)).2.device = 2 :=
  ⟨((runtime_failure_exits_on_last_switched_device noCoercion ⟨3, 2⟩ (.number 1) (.number 0)
      twoDevicesThreeStreams (failingAfter 0 6) 5 (by decide) (by decide) rfl).1 (by decide)
      (by decide)).2.1,
    ((runtime_failure_exits_on_last_switched_device noCoercion ⟨3, 2⟩ (.number 1) (.number 0)
      twoDevicesThreeStreams (failingAfter 0 6) 5 (by decide) (by decide) rfl).1 (by decide)
      (by decide)).2.2⟩

end Cutorch
